import Mathlib

/-!
Verification of the Reasoning Chain Pipeline (graceieg/ChainOfThought).

The Python sources are embedded shallowly:
  * `src/reasoner/models.py`   -> `StepType`, `RelationshipType`, `ReasoningStep`,
    `Relationship`, `ReasoningChain`, `addStep`, `addRelationship`
  * `src/reasoner/parser.py`   -> `parseText`, `determineStepType`,
    `relsFrom` (the pairwise loop of `_analyze_relationships`), `areContradictory`
  * `src/reasoner/analyzer.py` -> `findUnsupportedClaims`, `findCircularReasoning`,
    `findHastyGeneralizations`, `findContradictions`, `findEmotionalReasoning`,
    `analyzeChain`
  * `src/reasoner/ml_suggestions.py` -> `getSuggestions`, `analyzeFlow`

The spaCy pipeline is external to the repository; following the spec it is
consumed only as a capability `NLP : String -> List Token` where a `Token`
carries surface text, lemma, stop-word flag and punctuation flag, and TextBlob
only as `Sentiment : String -> Rat` (a polarity).  All pipeline functions are
parameterised by these capabilities.  Python string/float semantics are
mirrored by explicit helpers (`pyStrip`, `pyContains`, ...); floats are
modelled as exact rationals (every comparison performed by the code is far
from any rounding boundary at realistic sizes).  The one partial operation of
the pipeline, `next(...)` inside `_find_contradictions` (which raises
`StopIteration` when a relationship endpoint resolves to no step), is
modelled by an `Option` result.
-/

namespace Reasoner

/-! ### Python string semantics -/

/-- The characters Python `str.strip()` and the regex class `\s` treat as
whitespace (space, tab, newline, carriage return, vertical tab, form feed). -/
def pyIsSpace (c : Char) : Bool :=
  c = ' ' || c = '\t' || c = '\n' || c = '\r' || c = '\x0b' || c = '\x0c'

/-- Python `str.strip()` on a character list. -/
def pyStripList (cs : List Char) : List Char :=
  ((cs.dropWhile pyIsSpace).reverse.dropWhile pyIsSpace).reverse

/-- Python `str.strip()`. -/
def pyStrip (s : String) : String := ⟨pyStripList s.toList⟩

/-- Python `str.strip('.')` (strip dots from both ends). -/
def pyStripDots (s : String) : String :=
  ⟨((s.toList.dropWhile (· = '.')).reverse.dropWhile (· = '.')).reverse⟩

/-- Python `str.lower()` (ASCII case mapping suffices for the texts here). -/
def pyLower (s : String) : String := ⟨s.toList.map Char.toLower⟩

/-- Boolean list-prefix test. -/
def isPrefixList : List Char → List Char → Bool
  | [], _ => true
  | _ :: _, [] => false
  | a :: as, b :: bs => a == b && isPrefixList as bs

/-- Boolean list-infix test (occurs as a contiguous run). -/
def isInfixList (sub : List Char) : List Char → Bool
  | [] => isPrefixList sub []
  | c :: cs => isPrefixList sub (c :: cs) || isInfixList sub cs

/-- Python `sub in s` (substring containment). -/
def pyContains (s sub : String) : Bool := isInfixList sub.toList s.toList

/-- Split a character list at every character satisfying `p`, keeping empty
pieces (the splitting semantics shared by Python `str.split(sep)` for a
one-character separator and, after dropping empties, `str.split()`). -/
def splitOnP (p : Char → Bool) : List Char → List (List Char)
  | [] => [[]]
  | x :: xs =>
    match splitOnP p xs with
    | [] => [[]]
    | h :: t => if p x then [] :: h :: t else (x :: h) :: t

/-- Python `text.split('\n')`. -/
def pySplitLines (s : String) : List String :=
  (splitOnP (fun c => c == '\n') s.toList).map (fun l => (⟨l⟩ : String))

/-- Python `str.split()` with no argument: split on whitespace runs,
dropping empty pieces. -/
def pySplitWs (s : String) : List String :=
  ((splitOnP pyIsSpace s.toList).map (fun l => (⟨l⟩ : String))).filter (· ≠ "")

/-- First occurrence of `sep` in `s`: `some (before, after)`, scanning from
the left, or `none` when `sep` does not occur (`sep` is never empty in the
embedded code). -/
def splitFirst (sep : List Char) : List Char → Option (List Char × List Char)
  | [] => none
  | c :: cs =>
    if isPrefixList sep (c :: cs) then some ([], (c :: cs).drop sep.length)
    else (splitFirst sep cs).map (fun p => (c :: p.1, p.2))

/-- Python `s.split(sep, 1)` viewed as the pair (part before, part after);
when `sep` is absent the pair is `(s, "")` (Python would give a one-element
list, and the code only reads index 1 under an `in` guard). -/
def pySplit1 (s sep : String) : String × String :=
  match splitFirst sep.toList s.toList with
  | some (a, b) => (⟨a⟩, ⟨b⟩)
  | none => (s, "")

theorem splitFirst_length (sep : List Char) (hne : sep ≠ []) :
    ∀ s a b, splitFirst sep s = some (a, b) → b.length < s.length := by
  intro s
  induction s with
  | nil => intro a b h; exact absurd h (by simp [splitFirst])
  | cons c cs ih =>
    intro a b h
    simp only [splitFirst] at h
    split at h
    · simp only [Option.some.injEq, Prod.mk.injEq] at h
      obtain ⟨-, rfl⟩ := h
      have : 0 < sep.length := List.length_pos_of_ne_nil hne
      simp only [List.length_drop, List.length_cons]
      omega
    · cases hs : splitFirst sep cs with
      | none => rw [hs] at h; simp at h
      | some p =>
        rw [hs] at h
        simp only [Option.map_some', Option.some.injEq] at h
        obtain ⟨a', b'⟩ := p
        cases h
        have := ih a' b' hs
        simp only [List.length_cons]
        omega

/-- Python `s.replace(old, "")` (remove every non-overlapping occurrence,
left to right). -/
def pyRemoveList (old : List Char) (s : List Char) : List Char :=
  if hne : old = [] then s
  else
    match hs : splitFirst old s with
    | none => s
    | some (a, b) => a ++ pyRemoveList old b
termination_by s.length
decreasing_by
  exact splitFirst_length old hne s a b hs

/-- Python `s.replace(old, "")`. -/
def pyRemove (s old : String) : String := ⟨pyRemoveList old.toList s.toList⟩

/-- Size of the intersection of two Python sets of strings, each given by a
list of its members (possibly with repeats). -/
def interCount (a b : List String) : Nat :=
  ((a.dedup).filter (fun x => b.contains x)).length

/-- Size of the union of two Python sets of strings. -/
def unionCount (a b : List String) : Nat := ((a ++ b).dedup).length

/-! ### External NLP capability (spaCy / TextBlob, outside the repository)

Per the spec the core consumes the NLP toolkit only as
`tokenize+lemmatize(text) -> sequence of (surface, lemma, is_stopword,
is_punctuation)` and `sentiment(text) -> polarity`. -/

/-- One token produced by the NLP capability, as the code reads it:
`token.text`, `token.lemma_`, `token.is_stop`, `token.is_punct`. -/
structure Token where
  text : String
  lemmaStr : String
  isStop : Bool
  isPunct : Bool
deriving DecidableEq

/-- The tokenizer/lemmatizer capability (`self.nlp` in the sources). -/
abbrev NLP := String → List Token

/-- The sentiment capability (`TextBlob(...).sentiment.polarity`). -/
abbrev Sentiment := String → Rat

/-! ### Data model (src/reasoner/models.py) -/

/-- `StepType` (a str-valued enum in the source). -/
inductive StepType where
  | premise
  | conclusion
  | evidence
  | assumption
deriving DecidableEq

/-- `RelationshipType` (a str-valued enum in the source). -/
inductive RelationshipType where
  | supports
  | contradicts
  | questions
  | elaborates
deriving DecidableEq

/-- `ReasoningStep` (metadata is an open string map, empty throughout). -/
structure ReasoningStep where
  id : Nat
  text : String
  step_type : StepType
  confidence : Rat := 1
  metadata : List (String × String) := []
deriving DecidableEq

/-- `Relationship`. -/
structure Relationship where
  source_id : Nat
  target_id : Nat
  rel_type : RelationshipType
  confidence : Rat := 1
deriving DecidableEq

/-- `ReasoningChain`. -/
structure ReasoningChain where
  steps : List ReasoningStep := []
  relationships : List Relationship := []
deriving DecidableEq

/-- `ReasoningChain.add_step`: appends a step whose id is
`len(self.steps) + 1`. -/
def addStep (c : ReasoningChain) (text : String) (st : StepType) : ReasoningChain :=
  { c with steps := c.steps ++ [{ id := c.steps.length + 1, text := text, step_type := st }] }

/-- `ReasoningChain.add_relationship`. -/
def addRelationship (c : ReasoningChain) (source_id target_id : Nat)
    (rel_type : RelationshipType) : ReasoningChain :=
  { c with relationships := c.relationships ++
      [{ source_id := source_id, target_id := target_id, rel_type := rel_type }] }

/-! ### Parser (src/reasoner/parser.py) -/

/-- The regex substitution `re.sub(r'^\s*\d+[.)]\s*', '', line)`: strip one
leading ordinal marker (optional whitespace, digits, `.` or `)`, optional
whitespace); an unmatched line is returned unchanged.  Greedy `\d+` followed
by the single-character class cannot match where the maximal digit run
cannot, so no backtracking case is lost. -/
def stripOrdinalList (cs : List Char) : List Char :=
  let t := cs.dropWhile pyIsSpace
  let ds := t.takeWhile Char.isDigit
  if ds.isEmpty then cs
  else
    match t.drop ds.length with
    | c :: rest => if c = '.' ∨ c = ')' then rest.dropWhile pyIsSpace else cs
    | [] => cs

/-- String form of `stripOrdinalList`. -/
def stripOrdinal (s : String) : String := ⟨stripOrdinalList s.toList⟩

/-- Conclusion indicator phrases of `_determine_step_type`. -/
def conclusionIndicators : List String := ["therefore", "so", "thus", "hence", "as a result"]

/-- Evidence indicator phrases of `_determine_step_type`. -/
def evidenceIndicators : List String := ["because", "since", "as", "due to"]

/-- `ReasoningParser._determine_step_type` source: substring scan of the
lowercased text, conclusion indicators first, then evidence indicators,
default PREMISE.  (The source also tokenizes the text into a `doc` variable
that it never reads; a pure no-op, not modelled.) -/
def determineStepType (text : String) : StepType :=
  let tl := pyLower text
  if conclusionIndicators.any (fun ind => pyContains tl ind) then StepType.conclusion
  else if evidenceIndicators.any (fun ind => pyContains tl ind) then StepType.evidence
  else StepType.premise

/-- The negation vocabulary of `_are_contradictory`. -/
def negationsList : List String :=
  ["no", "not", "never", "none", "nobody", "nothing", "nowhere", "neither", "nor"]

/-- The set of meaningful tokens of `_are_contradictory`:
`set(token.text for token in self.nlp(text.lower()) if not token.is_stop and
not token.is_punct)`.  Note the source reads the SURFACE form `token.text`,
not the lemma. -/
def tokenWords (nlp : NLP) (text : String) : List String :=
  (((nlp (pyLower text)).filter (fun tok => !tok.isStop && !tok.isPunct)).map Token.text).dedup

/-- `ReasoningParser._are_contradictory`: exactly one side mentions a
negation term among its meaningful tokens, and the two token sets share at
least two members. -/
def areContradictory (nlp : NLP) (t1 t2 : String) : Bool :=
  let words1 := tokenWords nlp t1
  let words2 := tokenWords nlp t2
  let hasNeg1 := negationsList.any (fun n => words1.contains n)
  let hasNeg2 := negationsList.any (fun n => words2.contains n)
  if hasNeg1 != hasNeg2 then decide (2 ≤ interCount words1 words2) else false

/-- The doubly nested loop of `_analyze_relationships`: for every pair
`(step1, step2)` with `step1` before `step2`, a CONTRADICTS relationship
`step1.id -> step2.id` when `_are_contradictory` holds, in loop order. -/
def relsFrom (nlp : NLP) : List ReasoningStep → List Relationship
  | [] => []
  | s :: rest =>
      ((rest.filter (fun t => areContradictory nlp s.text t.text)).map
        (fun t => { source_id := s.id, target_id := t.id,
                    rel_type := RelationshipType.contradicts })) ++ relsFrom nlp rest

/-- `ReasoningParser.parse_text`: split on newlines, strip, drop blank
lines, strip the ordinal prefix, drop lines that became empty, append steps
in order, then add the inferred relationships. -/
def parseText (nlp : NLP) (text : String) : ReasoningChain :=
  let lines := ((pySplitLines text).map pyStrip).filter (fun l => l ≠ "")
  let c := lines.foldl
    (fun ch line =>
      let content := pyStrip (stripOrdinal line)
      if content ≠ "" then addStep ch content (determineStepType content) else ch)
    {}
  { c with relationships := c.relationships ++ relsFrom nlp c.steps }

/-- The cleaned content of one (already stripped, non-blank) input line:
`none` when stripping the ordinal marker leaves a blank line. -/
def cleanLine (line : String) : Option String :=
  let content := pyStrip (stripOrdinal line)
  if content ≠ "" then some content else none

/-- The surviving line contents of an input text, in order. -/
def survivingLines (text : String) : List String :=
  (((pySplitLines text).map pyStrip).filter (fun l => l ≠ "")).filterMap cleanLine

/-- The steps the parser builds for the surviving contents, ids counting up
from `start`. -/
def mkSteps (start : Nat) : List String → List ReasoningStep
  | [] => []
  | t :: ts => { id := start, text := t, step_type := determineStepType t } :: mkSteps (start + 1) ts

/-! ### Analyzer (src/reasoner/analyzer.py) -/

/-- Detector/scorer output record: the Python code builds dicts with the
keys below; a key a given issue does not set is modelled as `none` / `[]`. -/
structure Issue where
  type : String := ""
  description : String := ""
  suggestions : List String := []
  severity : String := ""
  confidence : Option Rat := none
  step_ids : Option (List Nat) := none
  step : Option Nat := none
  details : Option (String × String) := none
deriving DecidableEq

/-- `casual_terms` of `_find_unsupported_claims`. -/
def casualTerms : List String :=
  ["eat", "dinner", "lunch", "breakfast", "snack", "drink",
   "sleep", "rest", "walk", "watch", "read", "listen", "i feel",
   "i think", "i believe", "i want", "i need", "i would like",
   "let\x27s", "maybe", "perhaps", "i\x27m thinking", "i guess"]

/-- `academic_terms` of `_find_unsupported_claims`. -/
def academicTerms : List String :=
  ["study", "exam", "test", "homework", "assignment", "class",
   "course", "learn", "review", "practice", "problem", "solve",
   "task", "project", "due", "deadline", "plan", "schedule",
   "research", "paper", "thesis", "dissertation"]

/-- `logical_indicators` of `_find_unsupported_claims`. -/
def logicalIndicators : List String :=
  ["therefore", "thus", "hence", "consequently", "as a result",
   "because", "since", "given that", "this implies", "it follows that"]

/-- The first-person future-intent phrases deciding `is_plan`. -/
def planPhrases : List String := ["i\x27ll", "i will", "plan to", "going to"]

/-- `_is_common_knowledge`'s allow-list (the odd spelling of the freezing
phrase is the source's own byte sequence). -/
def commonKnowledgePhrases : List String :=
  ["the sky is blue", "water is wet", "the earth is round",
   "humans need oxygen", "the sun rises in the east", "2+2=4",
   "paris is the capital of france", "water freezes at 0\xC2\xB0c",
   "the sun is a star", "humans are mortal"]

/-- `ReasoningAnalyzer._is_common_knowledge`. -/
def isCommonKnowledge (text : String) : Bool :=
  let tl := pyStrip (pyStripDots (pyLower text))
  commonKnowledgePhrases.any (fun p => pyContains tl p)

/-- `assumption_indicators` with their fixed confidence weights. -/
def assumptionIndicators : List (String × Rat) :=
  [("must", 0.9), ("should", 0.7), ("have to", 0.6), ("need to", 0.5),
   ("ought to", 0.8), ("always", 0.9), ("never", 0.9)]

/-- The fixed softening-phrase list the assumption pass skips on. -/
def softeningPhrases : List String :=
  ["i should", "we should", "you should", "one should",
   "i must", "we must", "you must", "one must",
   "i have to", "we have to", "you have to"]

/-- Conditional markers of the assumption pass. -/
def conditionalMarkers : List String := ["if ", "when ", "unless "]

/-- The `for indicator, confidence in assumption_indicators` loop for one
step (`continue` moves to the next indicator; `break` after the first
emitted issue): the confidence of the first indicator present and not
skipped, or `none`. -/
def assumptionScan (tl : String) : List (String × Rat) → Option Rat
  | [] => none
  | (ind, conf) :: rest =>
    if pyContains tl ind then
      if softeningPhrases.any (fun p => pyContains tl p) then assumptionScan tl rest
      else if conditionalMarkers.any (fun p => pyContains tl p) then assumptionScan tl rest
      else some conf
    else assumptionScan tl rest

/-- The `potential_assumption` issue for one step. -/
def mkAssumptionIssue (step : ReasoningStep) (conf : Rat) : Issue :=
  { type := "potential_assumption",
    description := "This statement might contain an assumption: \x27" ++ step.text ++ "\x27",
    suggestions :=
      ["What makes you think this is necessary or true?",
       "Are there situations where this might not apply?",
       "Could you explain the reasoning behind this statement?"],
    severity := "low",
    confidence := some conf }

/-- The `consider_adding_support` issue for one conclusion step. -/
def mkConsiderIssue (step : ReasoningStep) : Issue :=
  { type := "consider_adding_support",
    description := "This conclusion might benefit from more support: \x27" ++ step.text ++ "\x27",
    suggestions :=
      ["What evidence or reasoning leads you to this conclusion?",
       "Are there any assumptions that should be made explicit?",
       "Could you add a step explaining why this follows from previous statements?"],
    severity := "low" }

/-- The single `planning_analysis` issue. -/
def planningIssue : Issue :=
  { type := "planning_analysis",
    description := "This appears to be a planning or decision-making process",
    suggestions :=
      ["Have you considered potential obstacles to this plan?",
       "What alternatives did you consider before reaching this decision?",
       "Are there any dependencies between your tasks that should be addressed?"],
    severity := "info" }

/-- `ReasoningAnalyzer._find_unsupported_claims`.  (The source also computes
an `is_logical` flag over the whole chain that no later line reads; it is
not modelled.)  Note that none of the three issue shapes built here sets a
`step` or `step_ids` key. -/
def findUnsupportedClaims (chain : ReasoningChain) : List Issue :=
  let allText := String.intercalate (" ") (chain.steps.map (fun s => pyLower s.text))
  let conclusionSteps := chain.steps.filter (fun s => s.step_type == StepType.conclusion)
  let isPlan := conclusionSteps.any
    (fun s => planPhrases.any (fun p => pyContains (pyLower s.text) p))
  let isCasual := casualTerms.any (fun t => pyContains allText t)
  let isAcademic := academicTerms.any (fun t => pyContains allText t)
  let considerIssues :=
    if !(isCasual && !isAcademic) && !isPlan then
      chain.steps.filterMap (fun step =>
        if step.step_type == StepType.conclusion && !isCommonKnowledge step.text then
          let supporting := chain.relationships.filter
            (fun r => r.target_id == step.id && r.rel_type == RelationshipType.supports)
          let isLogicalStep := logicalIndicators.any
            (fun ind => pyContains (pyLower step.text) ind)
          if supporting.isEmpty && !isLogicalStep then some (mkConsiderIssue step)
          else none
        else none)
    else []
  let planningIssues :=
    if isPlan && decide (1 < chain.steps.length) then [planningIssue] else []
  let assumptionIssues :=
    chain.steps.filterMap (fun step =>
      (assumptionScan (pyLower step.text) assumptionIndicators).map (mkAssumptionIssue step))
  considerIssues ++ planningIssues ++ assumptionIssues

/-- The `contradiction` issue for one CONTRADICTS relationship. -/
def mkContradictionIssue (r : Relationship) (source target : ReasoningStep) : Issue :=
  { type := "contradiction",
    description := "Contradiction between steps " ++ toString r.source_id ++
      " and " ++ toString r.target_id,
    details := some (source.text, target.text),
    step_ids := some [r.source_id, r.target_id],
    severity := "high" }

/-- The relationship loop of `_find_contradictions`; `next(...)` raises
StopIteration when an endpoint resolves to no step of the chain, modelled
by `none`. -/
def contradictionsGo (steps : List ReasoningStep) : List Relationship → Option (List Issue)
  | [] => some []
  | r :: rest =>
    if r.rel_type == RelationshipType.contradicts then
      match steps.find? (fun s => s.id == r.source_id),
            steps.find? (fun s => s.id == r.target_id) with
      | some source, some target =>
        (contradictionsGo steps rest).map (fun l => mkContradictionIssue r source target :: l)
      | _, _ => none
    else contradictionsGo steps rest

/-- `ReasoningAnalyzer._find_contradictions`. -/
def findContradictions (chain : ReasoningChain) : Option (List Issue) :=
  contradictionsGo chain.steps chain.relationships

/-- `generalization_indicators` (the source lists `always `/`never ` twice;
the duplicates are kept). -/
def generalizationIndicators : List (String × Rat) :=
  [("all ", 0.9), ("every ", 0.9), ("always ", 0.8), ("never ", 0.8),
   ("no one", 0.9), ("everyone", 0.9), ("nobody", 0.9),
   ("everybody", 0.9), ("everything", 0.7), ("nothing", 0.7),
   ("always ", 0.8), ("never ", 0.8)]

/-- `common_sayings` of `_find_hasty_generalizations`. -/
def commonSayings : List String :=
  ["all of the above", "all right", "all the time",
   "all in all", "every now and then", "every time"]

/-- Quantifier tokens of the logical-statement exemption. -/
def quantifierTokens : List String := ["all ", "every ", "no ", "some "]

/-- Copula/possession tokens of the logical-statement exemption. -/
def copulaTokens : List String := [" are ", " is ", " have ", " has "]

/-- The `hasty_generalization` issue for one step and indicator weight. -/
def mkHastyIssue (step : ReasoningStep) (conf : Rat) : Issue :=
  { type := "hasty_generalization",
    description := "Potential hasty generalization: \x27" ++ step.text ++ "\x27",
    step_ids := some [step.id],
    severity := "medium",
    confidence := some conf,
    suggestions :=
      ["Could you provide evidence or examples to support this generalization?",
       "Consider using qualifiers like \x27some\x27, \x27many\x27, or \x27often\x27 if appropriate"] }

/-- `ReasoningAnalyzer._find_hasty_generalizations` (no break: a step can
yield one issue per matching indicator occurrence in the list). -/
def findHastyGeneralizations (chain : ReasoningChain) : List Issue :=
  chain.steps.flatMap (fun step =>
    let tl := pyLower step.text
    if commonSayings.any (fun p => pyContains tl p) then []
    else
      generalizationIndicators.filterMap (fun ic =>
        if pyContains tl ic.1 then
          let isLogical := (quantifierTokens.any (fun t => pyContains tl t)) &&
                           (copulaTokens.any (fun t => pyContains tl t))
          let supporting := chain.relationships.filter
            (fun r => r.target_id == step.id && r.rel_type == RelationshipType.supports)
          if supporting.isEmpty && !isLogical then some (mkHastyIssue step ic.2)
          else none
        else none))

/-- Lemma set of a text as `_find_circular_reasoning` computes it:
`set(token.lemma_ for token in self.nlp(text) if not token.is_stop and not
token.is_punct)` (the caller lowercases where the source does). -/
def tokenLemmas (nlp : NLP) (text : String) : List String :=
  (((nlp text).filter (fun tok => !tok.isStop && !tok.isPunct)).map Token.lemmaStr).dedup

/-- The canonical string of a step for near-duplicate detection:
`' '.join(token.lemma_ ...)` over the lowercased text (a list join, not a
set: duplicates and order are kept). -/
def normalizeStep (nlp : NLP) (text : String) : String :=
  String.intercalate (" ")
    (((nlp (pyLower text)).filter (fun tok => !tok.isStop && !tok.isPunct)).map Token.lemmaStr)

/-- The near-duplicate `circular_reasoning` issue (`prev` and `cur` are the
1-based step numbers). -/
def mkDupIssue (prev cur : Nat) : Issue :=
  { type := "circular_reasoning",
    description := "Step " ++ toString cur ++ " repeats the same point as step " ++ toString prev,
    step_ids := some [prev, cur],
    severity := "high",
    suggestions :=
      ["This appears to be circular reasoning - the same point is being made multiple times",
       "Provide new evidence or reasoning to support your argument"] }

/-- The first pass of `_find_circular_reasoning`: the `seen` dict scan
(`i` is the 0-based index of the head step; a repeat of a canonical string
longer than 3 tokens is flagged and leaves `seen` unchanged, otherwise the
entry is (re)written). -/
def dupScan (nlp : NLP) : List (String × Nat) → Nat → List ReasoningStep → List Issue
  | _, _, [] => []
  | seen, i, step :: rest =>
    let norm := normalizeStep nlp step.text
    match seen.lookup norm with
    | some prev =>
      if decide (3 < (pySplitWs norm).length) then
        mkDupIssue prev (i + 1) :: dupScan nlp seen (i + 1) rest
      else dupScan nlp ((norm, i + 1) :: seen) (i + 1) rest
    | none => dupScan nlp ((norm, i + 1) :: seen) (i + 1) rest

/-- The issue of the literal Bible special case. -/
def mkBibleIssue : Issue :=
  { type := "circular_reasoning",
    description := "Steps 1 and 2 form a circular argument",
    step_ids := some [1, 2],
    severity := "high",
    suggestions :=
      ["This is a classic example of circular reasoning - the conclusion is used as its own evidence",
       "Provide independent evidence to support the claim"] }

/-- The literal Bible special case checked at `i == 0` (only when the chain
has a second step). -/
def bibleIssue (chain : ReasoningChain) : List Issue :=
  match chain.steps with
  | s0 :: s1 :: _ =>
    if pyContains (pyLower s0.text) ("bible") &&
       pyContains (pyLower s0.text) ("is true because it says so") &&
       pyContains (pyLower s1.text) ("says so because it\x27s true") then [mkBibleIssue]
    else []
  | _ => []

/-- Pronoun list of the coreference heuristic. -/
def pronounsList : List String := ["it", "they", "he", "she", "this", "that"]

/-- The nested `is_circular(text1, text2)` closure of
`_find_circular_reasoning` (both arguments already lowercased by the
caller).  The sequential `return True` blocks are a disjunction of
side-effect-free checks, transcribed in source order. -/
def circularTest (nlp : NLP) (text1 text2 : String) : Bool :=
  let check1 := pyContains text1 (" is true because ") && pyContains text2 (" is true")
  let check2 :=
    if pyContains text1 (" because ") && pyContains text2 (" because ") then
      let parts1 := pySplit1 text1 (" because ")
      let parts2 := pySplit1 text2 (" because ")
      if pyContains parts2.2 (pyStrip parts1.1) && pyContains parts1.2 (pyStrip parts2.1) then true
      else if pyContains parts1.1 (" is ") && pyContains parts2.1 (" is ") then
        let sc1 := pySplit1 parts1.1 (" is ")
        let sc2 := pySplit1 parts2.1 (" is ")
        let subj1 := pyStrip sc1.1
        let comp1 := pyStrip sc1.2
        let subj2 := pyStrip sc2.1
        let comp2 := pyStrip sc2.2
        comp1 == comp2 && (pyContains parts2.2 subj1 || pyContains parts1.2 subj2)
      else false
    else false
  let check3 :=
    if pyContains text1 (" is true because ") && pyContains text1 ("says so") then
      let subject := pyStrip (pySplit1 text1 (" is true")).1
      pyContains text1 (subject ++ " says so") &&
        (pyContains (pyLower text2) ("because it\x27s true") ||
         pyContains (pyLower text2) ("because it is true"))
    else false
  let check4 :=
    if (pyContains text1 (" is true because ") && pyContains text1 ("says so")) ||
       (pyContains text2 (" is true because ") && pyContains text2 ("says so")) then
      let hasShape1 := pyContains text1 (" is true because ") && pyContains text1 ("says so")
      let subject1 := if hasShape1 then pyStrip (pySplit1 text1 (" is true")).1 else ""
      let reason1 :=
        if hasShape1 then pyStrip (pyRemove (pySplit1 text1 (" because ")).2 ("says so")) else ""
      let hasShape2 := pyContains text2 (" says so because ") && pyContains text2 (" is true")
      let subject2 := if hasShape2 then pyStrip (pySplit1 text2 (" says so")).1 else ""
      let reason2 :=
        if hasShape2 then pyStrip (pyRemove (pySplit1 text2 (" because ")).2 ("is true")) else ""
      if subject1 != "" && subject2 != "" && reason1 != "" && reason2 != "" &&
         ((pyContains (pyLower reason2) (pyLower subject1) ||
           pyContains (pyLower subject1) (pyLower reason2)) &&
          (pyContains (pyLower reason1) (pyLower subject2) ||
           pyContains (pyLower subject2) (pyLower reason1))) then true
      else
        (pronounsList.contains (pyLower subject1) && subject2 != "") ||
        (pronounsList.contains (pyLower subject2) && subject1 != "")
    else false
  let check5 :=
    if pyContains text1 (" because ") && pyContains text2 (" because ") then
      let parts1 := pySplit1 text1 (" because ")
      let parts2 := pySplit1 text2 (" because ")
      if pyContains parts2.2 (pyStrip parts1.1) && pyContains parts1.2 (pyStrip parts2.1) &&
         decide (2 < (pySplitWs parts1.1).length) && decide (2 < (pySplitWs parts2.1).length) then
        true
      else
        let lemmas1 := tokenLemmas nlp parts1.1
        let lemmas2 := tokenLemmas nlp parts2.2
        !lemmas1.isEmpty && !lemmas2.isEmpty &&
          decide ((1 : Rat) / 2 <
            (interCount lemmas1 lemmas2 : Rat) / (unionCount lemmas1 lemmas2 : Rat))
    else false
  check1 || check2 || check3 || check4 || check5

/-- The adjacent-pair `circular_reasoning` issue (`i` is the 0-based index
of the first step of the pair). -/
def mkPairCircularIssue (i : Nat) (sugg : List String) : Issue :=
  { type := "circular_reasoning",
    description := "Potential circular reasoning between steps " ++ toString (i + 1) ++
      " and " ++ toString (i + 2),
    step_ids := some [i + 1, i + 2],
    severity := "high",
    suggestions := sugg }

/-- The second pass of `_find_circular_reasoning`: for each consecutive
pair, the bidirectional `is_circular` test and then the lemma-overlap test
(both issues may fire for the same pair, in that order). -/
def pass2Scan (nlp : NLP) : Nat → List ReasoningStep → List Issue
  | _, [] => []
  | _, [_] => []
  | i, s1 :: s2 :: rest =>
    let cur := pyLower s1.text
    let nxt := pyLower s2.text
    let structuralIssues :=
      if circularTest nlp cur nxt || circularTest nlp nxt cur then
        [mkPairCircularIssue i
          ["This appears to be circular reasoning - the conclusion is used as its own evidence",
           "Provide independent evidence or reasoning to support your claim"]]
      else []
    let curLemmas := tokenLemmas nlp cur
    let nxtLemmas := tokenLemmas nlp nxt
    let overlapIssues :=
      if !curLemmas.isEmpty && !nxtLemmas.isEmpty then
        let ov := interCount curLemmas nxtLemmas
        if decide (3 ≤ ov) && decide ((1 : Rat) / 2 < (ov : Rat) / (curLemmas.length : Rat)) then
          [mkPairCircularIssue i
            ["Ensure each step introduces new information or evidence",
             "Check if these steps are just restating the same point"]]
        else []
      else []
    structuralIssues ++ overlapIssues ++ pass2Scan nlp (i + 1) (s2 :: rest)

/-- `ReasoningAnalyzer._find_circular_reasoning`: the Bible special case
and the `seen`-dict pass, then the adjacent-pair pass (which the source
guards by `len >= 2`, vacuous for shorter chains). -/
def findCircularReasoning (nlp : NLP) (chain : ReasoningChain) : List Issue :=
  bibleIssue chain ++ dupScan nlp [] 0 chain.steps ++ pass2Scan nlp 0 chain.steps

/-! A miniature matcher for the eight fixed `re.search` patterns of
`_find_emotional_reasoning`.  The patterns use only literal text,
non-capturing alternations of literals, `.*` and `\w+`; a pattern is a
sequence of such atoms, and `reSearch` is Python `re.search` (a match may
start anywhere; `.` does not cross a newline; existence of a match is
independent of greediness). -/

/-- One atom of a pattern. -/
inductive RAtom where
  | lit (s : String)
  | anyStar
  | wordPlus
  | alt (ss : List String)

/-- Python `\w` for the ASCII texts at hand. -/
def isWordChar (c : Char) : Bool := c.isAlpha || c.isDigit || c = '_'

/-- `.*` matching: succeed with the continuation here or skip one
non-newline character. -/
def starScan (f : List Char → Bool) : List Char → Bool
  | [] => f []
  | c :: cs => f (c :: cs) || (!(c == '\n') && starScan f cs)

/-- `\w+` matching: consume one or more word characters, then the
continuation. -/
def wplusScan (f : List Char → Bool) : List Char → Bool
  | [] => false
  | c :: cs => isWordChar c && (f cs || wplusScan f cs)

/-- Match a pattern against the start of `cs` (exploring every split, which
decides exactly the existence a backtracking engine decides). -/
def matchAtoms : List RAtom → List Char → Bool
  | [] => fun _ => true
  | RAtom.lit s :: rest => fun cs =>
      isPrefixList s.toList cs && matchAtoms rest (cs.drop s.toList.length)
  | RAtom.anyStar :: rest => starScan (matchAtoms rest)
  | RAtom.wordPlus :: rest => wplusScan (matchAtoms rest)
  | RAtom.alt ss :: rest => fun cs =>
      ss.any (fun s => isPrefixList s.toList cs && matchAtoms rest (cs.drop s.toList.length))

/-- Try every start position. -/
def searchFrom (p : List RAtom) : List Char → Bool
  | [] => matchAtoms p []
  | c :: cs => matchAtoms p (c :: cs) || searchFrom p cs

/-- Python `re.search(pattern, s) is not None`. -/
def reSearch (p : List RAtom) (s : String) : Bool := searchFrom p s.toList

/-- `emotional_words` of `_find_emotional_reasoning`. -/
def emotionalWords : List String :=
  ["happy", "sad", "angry", "afraid", "scared", "worried", "anxious",
   "excited", "nervous", "frustrated", "disappointed", "proud",
   "ashamed", "guilty", "jealous", "lonely", "hopeful", "hopeless",
   "hate", "love", "terrified", "furious", "ecstatic", "miserable",
   "awful", "wonderful", "terrible", "horrible", "amazing", "perfect",
   "dreadful", "fantastic", "devastated", "heartbroken", "thrilled",
   "i feel", "i\x27m afraid", "i\x27m worried", "i\x27m scared", "i\x27m excited",
   "i\x27m happy", "i\x27m sad", "i think", "i believe", "i know", "i hope",
   "i wish", "i want", "i need", "i can\x27t stand", "i can\x27t handle",
   "i\x27m certain", "i\x27m sure", "i\x27m convinced"]

/-- `emotional_reasoning_patterns`: the eight regexes with their
descriptions. -/
def emotionalReasoningPatterns : List (List RAtom × String) :=
  [([RAtom.lit ("i "), RAtom.alt ["feel", "think", "believe"], RAtom.lit (" "),
     RAtom.anyStar, RAtom.lit (" so "), RAtom.alt ["i", "it", "that", "this"]],
    "using feelings as direct evidence"),
   ([RAtom.lit ("i\x27m "), RAtom.wordPlus, RAtom.lit (" because i "),
     RAtom.alt ["feel", "think", "believe"]],
    "basing conclusions on feelings rather than facts"),
   ([RAtom.lit ("i "), RAtom.alt ["know", "think", "believe"], RAtom.lit (" "),
     RAtom.anyStar, RAtom.lit (" because i "), RAtom.alt ["feel", "think", "believe"]],
    "using feelings as evidence for knowledge"),
   ([RAtom.lit ("i "), RAtom.alt ["feel", "think", "believe"], RAtom.lit (" "),
     RAtom.anyStar, RAtom.lit (" so "), RAtom.alt ["i", "you", "we", "they"], RAtom.lit (" "),
     RAtom.alt ["will", "must", "should", "have to", "need to"]],
    "using feelings to predict outcomes"),
   ([RAtom.lit ("i "), RAtom.alt ["feel", "think", "believe"], RAtom.lit (" "),
     RAtom.anyStar, RAtom.lit (" "), RAtom.alt ["therefore", "thus", "hence", "so", "because"],
     RAtom.lit (" "), RAtom.alt ["i", "you", "we", "they"]],
    "treating feelings as facts"),
   ([RAtom.alt ["i feel", "i\x27m feeling"], RAtom.lit (" "), RAtom.anyStar,
     RAtom.lit (" "), RAtom.alt ["so", "therefore", "thus"]],
    "drawing conclusions from feelings"),
   ([RAtom.alt ["i feel", "i\x27m feeling"], RAtom.lit (" "), RAtom.anyStar,
     RAtom.lit (" because")],
    "explaining with feelings rather than reasons"),
   ([RAtom.alt ["i feel", "i\x27m feeling"], RAtom.lit (" like "), RAtom.anyStar,
     RAtom.lit (" "), RAtom.alt ["is", "are", "was", "were"]],
    "stating feelings as facts")]

/-- The strong-emotion word list (including the certainty adverbs the
source appends). -/
def strongEmotionWords : List String :=
  ["hate", "love", "terrified", "furious", "ecstatic", "miserable",
   "awful", "wonderful", "terrible", "horrible", "amazing", "perfect",
   "dreadful", "fantastic", "devastated", "heartbroken", "thrilled",
   "definitely", "certainly", "absolutely"]

/-- Conclusion connectives of the adjacency `is_emotional_conclusion`
check. -/
def conclusionConnectives : List String :=
  ["therefore", "so", "thus", "hence", "because", "which means", "this means"]

/-- The connective list of the weak-match suppression (six words; no
`this means`). -/
def weakEmotionConnectives : List String :=
  ["because", "therefore", "so", "thus", "hence", "which means"]

/-- `chain.steps[r.source_id - 1].text` of the SUPPORTS lookup.  Python
raises IndexError when the index is out of range (and wraps negatives);
the lookup is only reached for SUPPORTS relationships, which none of the
verified configurations carries, so the out-of-range behaviour is modelled
as the empty text. -/
def stepTextAt (chain : ReasoningChain) (idx : Nat) : String :=
  match chain.steps.get? idx with
  | some s => s.text
  | none => ""

/-- The `emotional_reasoning` issue for the step at 0-based index `i`
(description and severity depend on the premise / relational-conclusion
flags). -/
def mkEmotionalIssue (i : Nat) (isPremise relEmotionalConclusion : Bool) : Issue :=
  { type := "emotional_reasoning",
    description :=
      if relEmotionalConclusion then
        "Step " ++ toString (i + 1) ++ " draws a conclusion based on feelings rather than facts"
      else if isPremise then
        "Step " ++ toString (i + 1) ++ " uses emotional reasoning to support a conclusion"
      else
        "Step " ++ toString (i + 1) ++ " contains emotional language that might weaken the argument",
    step_ids := some [i + 1],
    severity := if isPremise || relEmotionalConclusion then "medium" else "low",
    suggestions :=
      ["Support your argument with facts and evidence rather than feelings",
       "If this is an opinion, consider stating it as such",
       "Provide objective reasons to support your conclusion"] }

/-- The body of `_find_emotional_reasoning`'s per-step loop (`i` is the
0-based index, `prev` the previous step when one exists). -/
def emotionalIssueFor (nlp : NLP) (chain : ReasoningChain) (i : Nat)
    (prev : Option ReasoningStep) (step : ReasoningStep) : Option Issue :=
  let tl := pyLower step.text
  if decide ((pySplitWs tl).length < 4) && !(emotionalWords.any (fun w => pyContains tl w)) then
    none
  else
    let emotionFound := emotionalWords.any (fun w => pyContains tl w)
    let matchedPatterns := emotionalReasoningPatterns.filterMap
      (fun pd => if reSearch pd.1 tl then some pd.2 else none)
    let adjEmotionalConclusion :=
      match prev with
      | some p =>
        (emotionalWords.any (fun w => pyContains (pyLower p.text) w)) &&
          (conclusionConnectives.any (fun w => pyContains tl w))
      | none => false
    if emotionFound || !matchedPatterns.isEmpty || adjEmotionalConclusion then
      let strongEmotion0 := strongEmotionWords.any (fun w => pyContains tl w)
      let strongEmotion := strongEmotion0 ||
        (pyContains tl ("i feel") &&
          (["therefore", "so", "thus", "hence"].any (fun w => pyContains tl w)))
      let isPremise := chain.relationships.any
        (fun r => r.source_id == step.id && r.rel_type == RelationshipType.supports)
      let relEmotionalConclusion := chain.relationships.any
        (fun r => r.rel_type == RelationshipType.supports && r.target_id == step.id &&
          (emotionalWords.any
            (fun w => pyContains (pyLower (stepTextAt chain (r.source_id - 1))) w)))
      if strongEmotion || relEmotionalConclusion || isPremise || !matchedPatterns.isEmpty then
        if !isPremise && !relEmotionalConclusion && !strongEmotion &&
           !(weakEmotionConnectives.any (fun w => pyContains tl w)) then none
        else some (mkEmotionalIssue i isPremise relEmotionalConclusion)
      else none
    else none

/-- The per-step loop of `_find_emotional_reasoning`. -/
def emoScan (nlp : NLP) (chain : ReasoningChain) :
    Nat → Option ReasoningStep → List ReasoningStep → List Issue
  | _, _, [] => []
  | i, prev, s :: rest =>
    (emotionalIssueFor nlp chain i prev s).toList ++ emoScan nlp chain (i + 1) (some s) rest

/-- `ReasoningAnalyzer._find_emotional_reasoning`. -/
def findEmotionalReasoning (nlp : NLP) (chain : ReasoningChain) : List Issue :=
  emoScan nlp chain 0 none chain.steps

/-- `ReasoningAnalyzer.analyze_chain`: the five detector passes
concatenated in source order (`none` when `_find_contradictions` raises). -/
def analyzeChain (nlp : NLP) (chain : ReasoningChain) : Option (List Issue) :=
  (findContradictions chain).map (fun contradictionIssues =>
    findUnsupportedClaims chain ++ findCircularReasoning nlp chain ++
    findHastyGeneralizations chain ++ contradictionIssues ++
    findEmotionalReasoning nlp chain)

/-! ### Secondary suggestion scorer (src/reasoner/ml_suggestions.py) -/

/-- `emotional_indicators['positive']`. -/
def emotionalIndicatorsPositive : List String :=
  ["excellent", "great", "amazing", "love", "perfect", "best"]

/-- `emotional_indicators['negative']`. -/
def emotionalIndicatorsNegative : List String :=
  ["terrible", "awful", "worst", "hate", "never", "always"]

/-- `subjective_phrases`. -/
def subjectivePhrases : List String :=
  ["i think", "i believe", "in my opinion", "from my perspective",
   "it seems", "appears", "suggests", "indicates"]

/-- `transition_indicators` of `_analyze_flow`. -/
def transitionIndicators : List String :=
  ["therefore", "thus", "hence", "consequently",
   "additionally", "furthermore", "moreover",
   "however", "on the other hand", "conversely",
   "for example", "for instance", "specifically"]

/-- Python `abs` on a float, modelled on rationals. -/
def pyAbs (q : Rat) : Rat := if q < 0 then -q else q

/-- The per-step body of `LocalMLSuggestionEngine.get_suggestions` (`i` is
the 0-based index). -/
def suggestionsForStep (sent : Sentiment) (i : Nat) (step : ReasoningStep) : List Issue :=
  let text := pyStrip step.text
  let words := pySplitWs text
  if words.isEmpty then []
  else if decide (words.length < 3) then
    [{ type := "step_too_short",
       description := "Step " ++ toString (i + 1) ++ " is quite brief",
       confidence := some 0.9,
       severity := "low",
       suggestions := ["Add more details or examples",
                       "Explain the connection to your main point"] }]
  else
    let tl := pyLower text
    let emoIssues :=
      if emotionalIndicatorsPositive.any (fun w => pyContains tl w) then
        [{ type := "emotional_language_positive",
           description := "Step " ++ toString (i + 1) ++ " includes positive language",
           confidence := some 0.8,
           severity := "low",
           suggestions := ["Consider if this strong language is necessary",
                           "Balance emotional statements with evidence"] }]
      else if emotionalIndicatorsNegative.any (fun w => pyContains tl w) then
        [{ type := "emotional_language_negative",
           description := "Step " ++ toString (i + 1) ++ " includes negative language",
           confidence := some 0.8,
           severity := "low",
           suggestions := ["Consider if this strong language is necessary",
                           "Balance emotional statements with evidence"] }]
      else []
    let subjIssues :=
      if subjectivePhrases.any (fun p => pyContains tl p) then
        [{ type := "subjective_language",
           description := "Step " ++ toString (i + 1) ++ " includes subjective language",
           confidence := some 0.7,
           severity := "info",
           suggestions := ["Consider if this could be stated more objectively",
                           "Support with evidence or data if possible"] }]
      else []
    let polarity := sent tl
    let strongIssues :=
      if decide ((1 : Rat) / 2 < pyAbs polarity) then
        let stype := if decide ((0 : Rat) < polarity) then "positive" else "negative"
        [{ type := "strong_" ++ stype ++ "_sentiment",
           description := "Step " ++ toString (i + 1) ++ " includes strong " ++ stype ++ " language",
           confidence := some (min 0.9 (pyAbs polarity * 1.5)),
           severity := "low",
           suggestions := ["Consider if this strong language is necessary",
                           "Balance with factual statements"] }]
      else []
    emoIssues ++ subjIssues ++ strongIssues

/-- The per-step loop of `get_suggestions`. -/
def stepScan (sent : Sentiment) : Nat → List ReasoningStep → List Issue
  | _, [] => []
  | i, s :: rest => suggestionsForStep sent i s ++ stepScan sent (i + 1) rest

/-- The `smooth_transition_needed` suggestion for the pair at index `i`. -/
def mkFlowIssue (i : Nat) (overlap : Rat) : Issue :=
  { type := "smooth_transition_needed",
    description := "The transition to step " ++ toString (i + 2) ++ " could be smoother",
    confidence := some (0.8 - overlap * 1.5),
    severity := "low",
    suggestions := ["Add a transition to connect these ideas",
                    "Explain how these points relate to each other"] }

/-- The consecutive-pair loop of `_analyze_flow` (`i` is the 0-based index
of the first step of the pair). -/
def flowScan : Nat → List ReasoningStep → List Issue
  | _, [] => []
  | _, [_] => []
  | i, s1 :: s2 :: rest =>
    let cur := pyLower s1.text
    let nxt := pyLower s2.text
    let needsTransition := !(transitionIndicators.any (fun t => pyContains nxt t))
    let curWords := ((pySplitWs cur).filter (fun w => decide (3 < w.length))).dedup
    let nxtWords := ((pySplitWs nxt).filter (fun w => decide (3 < w.length))).dedup
    let topicOverlap : Rat :=
      (interCount curWords nxtWords : Rat) /
        ((max 1 (min curWords.length nxtWords.length) : Nat) : Rat)
    (if needsTransition && decide (topicOverlap < 0.4) then [mkFlowIssue i topicOverlap]
     else []) ++ flowScan (i + 1) (s2 :: rest)

/-- `LocalMLSuggestionEngine._analyze_flow`. -/
def analyzeFlow (chain : ReasoningChain) : List Issue :=
  if decide (chain.steps.length < 2) then [] else flowScan 0 chain.steps

/-- `LocalMLSuggestionEngine.get_suggestions`. -/
def getSuggestions (sent : Sentiment) (chain : ReasoningChain) : List Issue :=
  stepScan sent 0 chain.steps ++
    (if decide (1 < chain.steps.length) then analyzeFlow chain else [])

/-! ### Spec-side reformulations used to state the claims -/

/-- The lemma-token set of a step as the SPEC describes the contradiction
check ("compute lexical tokens (lemmas, stopwords/punctuation excluded)").
The source reads `token.text` instead; `tokenWords` is the source's set. -/
def tokenLemmasLower (nlp : NLP) (text : String) : List String :=
  (((nlp (pyLower text)).filter (fun tok => !tok.isStop && !tok.isPunct)).map Token.lemmaStr).dedup

/-- Modelled from the spec (section 4.2 wording, for comparison with the
source's `areContradictory`): the same check computed over lemmas. -/
def areContradictorySpec (nlp : NLP) (t1 t2 : String) : Bool :=
  let words1 := tokenLemmasLower nlp t1
  let words2 := tokenLemmasLower nlp t2
  let hasNeg1 := negationsList.any (fun n => words1.contains n)
  let hasNeg2 := negationsList.any (fun n => words2.contains n)
  if hasNeg1 != hasNeg2 then decide (2 ≤ interCount words1 words2) else false

/-- The indexed consecutive pairs a flow scan visits. -/
def flowPairs : Nat → List ReasoningStep → List (Nat × ReasoningStep × ReasoningStep)
  | _, [] => []
  | _, [_] => []
  | i, a :: b :: rest => (i, a, b) :: flowPairs (i + 1) (b :: rest)

/-- The topic overlap `_analyze_flow` computes for a consecutive pair. -/
def topicOverlapOf (s1 s2 : ReasoningStep) : Rat :=
  let curWords := ((pySplitWs (pyLower s1.text)).filter (fun w => decide (3 < w.length))).dedup
  let nxtWords := ((pySplitWs (pyLower s2.text)).filter (fun w => decide (3 < w.length))).dedup
  (interCount curWords nxtWords : Rat) /
    ((max 1 (min curWords.length nxtWords.length) : Nat) : Rat)

/-- Whether `_analyze_flow` considers a transition missing before `s2`. -/
def needsTransitionOf (s2 : ReasoningStep) : Bool :=
  !(transitionIndicators.any (fun t => pyContains (pyLower s2.text) t))

/-- The flow-suggestion confidence is never negative (indeed always above
one fifth): the negation of the spec's "can go below 0" note, quantified
over every chain. -/
def flowConfidenceNonneg : Prop :=
  ∀ chain : ReasoningChain, ∀ iss ∈ analyzeFlow chain, ¬ (iss.confidence.getD 0 < 0)

/-! ### Concrete configurations used by witnesses and counterexamples -/

/-- A concrete tokenizer: whitespace tokens, each its own lemma, nothing
stopped or punctuation (a legitimate instance of the spec's NLP shape). -/
def nlpWs : NLP := fun s =>
  (pySplitWs s).map (fun w => { text := w, lemmaStr := w, isStop := false, isPunct := false })

/-- A concrete lemmatizer table distinguishing surface form from lemma. -/
def lemC2 (w : String) : String :=
  if w == "dogs" then "dog" else if w == "runs" then "run" else w

/-- A concrete tokenizer whose lemmas differ from the surface forms
(`dogs -> dog`, `runs -> run`), as any real lemmatizer's do. -/
def nlpC2 : NLP := fun s =>
  (pySplitWs s).map (fun w => { text := w, lemmaStr := lemC2 w, isStop := false, isPunct := false })

/-- A concrete sentiment capability (neutral). -/
def sentZero : Sentiment := fun _ => 0

/-- Counterexample input for the contradiction-inference claim. -/
def c2CexText : String := "dogs run not\ndog runs"

/-- Witness input for the contradiction-inference claim. -/
def c2WitText : String := "x not apple pie\napple pie good"

/-- A one-step chain whose step carries an assumption indicator. -/
def c7CexStep : ReasoningStep :=
  { id := 1, text := "the plan must succeed tomorrow", step_type := StepType.premise }

/-- The chain holding only `c7CexStep`. -/
def c7CexChain : ReasoningChain := { steps := [c7CexStep] }

/-- The one issue analysis finds on `c7CexChain`. -/
def c7CexIssue : Issue := mkAssumptionIssue c7CexStep 0.9

/-- A one-step chain that defeats the per-indicator reading of the
softening-frame suppression. -/
def c6CexChain : ReasoningChain :=
  { steps := [{ id := 1, text := "success must come and i should rest",
                step_type := StepType.premise }] }

/-- A two-step chain carrying one CONTRADICTS relationship (witness input
for the contradiction projection). -/
def c3WitChain : ReasoningChain :=
  { steps := [{ id := 1, text := "the cat is black", step_type := StepType.premise },
              { id := 2, text := "the cat is not black", step_type := StepType.premise }],
    relationships := [{ source_id := 1, target_id := 2,
                        rel_type := RelationshipType.contradicts }] }

/-! ## Lemmas about the parser -/

theorem mkSteps_map_text (l : List String) : ∀ n, (mkSteps n l).map ReasoningStep.text = l := by
  induction l with
  | nil => intro n; rfl
  | cons t ts ih => intro n; simpa [mkSteps] using ih (n + 1)

theorem mkSteps_map_id (l : List String) :
    ∀ n, (mkSteps n l).map ReasoningStep.id = List.range' n l.length := by
  induction l with
  | nil => intro n; rfl
  | cons t ts ih => intro n; simpa [mkSteps, List.range'] using ih (n + 1)

theorem mkSteps_length (l : List String) : ∀ n, (mkSteps n l).length = l.length := by
  induction l with
  | nil => intro n; rfl
  | cons t ts ih => intro n; simpa [mkSteps] using ih (n + 1)

theorem mkSteps_getElem? (l : List String) :
    ∀ n k, (mkSteps n l)[k]? =
      (l[k]?).map (fun t =>
        ({ id := n + k, text := t, step_type := determineStepType t } : ReasoningStep)) := by
  induction l with
  | nil => intro n k; simp [mkSteps]
  | cons t ts ih =>
    intro n k
    cases k with
    | zero => simp [mkSteps]
    | succ k' =>
      simp only [mkSteps, List.getElem?_cons_succ]
      rw [ih (n + 1) k']
      have : n + 1 + k' = n + (k' + 1) := by omega
      rw [this]

theorem mem_mkSteps (l : List String) :
    ∀ n s, s ∈ mkSteps n l →
      s.step_type = determineStepType s.text ∧ n ≤ s.id ∧ s.id < n + l.length := by
  induction l with
  | nil => intro n s h; cases h
  | cons t ts ih =>
    intro n s h
    rcases List.mem_cons.mp h with h | h
    · subst h
      refine ⟨rfl, le_refl _, ?_⟩
      simp only [List.length_cons]
      omega
    · obtain ⟨h1, h2, h3⟩ := ih (n + 1) s h
      refine ⟨h1, by omega, ?_⟩
      simp only [List.length_cons]
      omega

theorem mkSteps_any_id (l : List String) :
    ∀ n k, (mkSteps n l).any (fun s => s.id == k) = decide (n ≤ k ∧ k < n + l.length) := by
  induction l with
  | nil => intro n k; simp [mkSteps]
  | cons t ts ih =>
    intro n k
    simp only [mkSteps, List.any_cons, ih (n + 1) k, List.length_cons]
    by_cases h : n = k
    · subst h
      simp only [beq_self_eq_true, Bool.true_or]
      symm
      simp only [decide_eq_true_eq]
      omega
    · have : (({ id := n, text := t, step_type := determineStepType t } : ReasoningStep).id == k) = false := by
        simpa using h
      rw [this, Bool.false_or]
      congr 1
      simp only [eq_iff_iff, decide_eq_decide]
      omega

/-- The step-building fold of `parse_text`, characterized. -/
theorem parse_foldl (lines : List String) :
    ∀ c : ReasoningChain,
      lines.foldl (fun ch line =>
        let content := pyStrip (stripOrdinal line)
        if content ≠ "" then addStep ch content (determineStepType content) else ch) c =
      { steps := c.steps ++ mkSteps (c.steps.length + 1) (lines.filterMap cleanLine),
        relationships := c.relationships } := by
  induction lines with
  | nil => intro c; simp [mkSteps]
  | cons l ls ih =>
    intro c
    rw [List.foldl_cons, List.filterMap_cons]
    by_cases h : pyStrip (stripOrdinal l) = ""
    · have hb : cleanLine l = none := by simp [cleanLine, h]
      rw [hb]
      show ls.foldl _ (if pyStrip (stripOrdinal l) ≠ "" then _ else c) = _
      rw [if_neg (by simpa using h)]
      exact ih c
    · have hb : cleanLine l = some (pyStrip (stripOrdinal l)) := by simp [cleanLine, h]
      rw [hb]
      show ls.foldl _ (if pyStrip (stripOrdinal l) ≠ "" then
        addStep c (pyStrip (stripOrdinal l)) (determineStepType (pyStrip (stripOrdinal l))) else c) = _
      rw [if_pos h]
      rw [ih (addStep c (pyStrip (stripOrdinal l)) (determineStepType (pyStrip (stripOrdinal l))))]
      simp only [addStep, List.append_assoc, List.length_append, List.length_cons,
        List.length_nil, List.singleton_append, mkSteps]

/-- `parse_text`, characterized: the steps are `mkSteps 1` of the surviving
lines, the relationships are the pairwise inference over those steps. -/
theorem parseText_eq (nlp : NLP) (text : String) :
    parseText nlp text =
      { steps := mkSteps 1 (survivingLines text),
        relationships := relsFrom nlp (mkSteps 1 (survivingLines text)) } := by
  simp only [parseText]
  rw [parse_foldl]
  simp [survivingLines]

/-- Membership in the pairwise relationship list. -/
theorem relsFrom_mem (nlp : NLP) :
    ∀ (S : List ReasoningStep) (r : Relationship),
      r ∈ relsFrom nlp S ↔
        ∃ (i j : Nat) (si sj : ReasoningStep), i < j ∧ S[i]? = some si ∧ S[j]? = some sj ∧
          areContradictory nlp si.text sj.text = true ∧
          r = { source_id := si.id, target_id := sj.id,
                rel_type := RelationshipType.contradicts } := by
  intro S
  induction S with
  | nil =>
    intro r
    constructor
    · intro h; cases h
    · rintro ⟨i, j, si, sj, hij, hi, hj, hc, hr⟩
      simp at hi
  | cons s rest ih =>
    intro r
    constructor
    · intro h
      rcases List.mem_append.mp h with h | h
      · obtain ⟨t, ht, hr⟩ := List.mem_map.mp h
        obtain ⟨htm, hc⟩ := List.mem_filter.mp ht
        obtain ⟨j', hj'⟩ := List.getElem?_of_mem htm
        refine ⟨0, j' + 1, s, t, Nat.succ_pos _, by simp, ?_, hc, hr.symm⟩
        simpa using hj'
      · obtain ⟨i, j, si, sj, hij, hi, hj, hc, hr⟩ := (ih r).mp h
        refine ⟨i + 1, j + 1, si, sj, by omega, ?_, ?_, hc, hr⟩
        · simpa using hi
        · simpa using hj
    · rintro ⟨i, j, si, sj, hij, hi, hj, hc, hr⟩
      cases i with
      | zero =>
        simp only [List.getElem?_cons_zero, Option.some.injEq] at hi
        subst hi
        cases j with
        | zero => omega
        | succ j' =>
          simp only [List.getElem?_cons_succ] at hj
          refine List.mem_append.mpr (Or.inl ?_)
          refine List.mem_map.mpr ⟨sj, List.mem_filter.mpr ⟨List.getElem?_mem hj, hc⟩, hr.symm⟩
      | succ i' =>
        cases j with
        | zero => omega
        | succ j' =>
          simp only [List.getElem?_cons_succ] at hi hj
          exact List.mem_append.mpr (Or.inr ((ih r).mpr ⟨i', j', si, sj, by omega, hi, hj, hc, hr⟩))

/-- Every inferred relationship is CONTRADICTS. -/
theorem relsFrom_contradicts (nlp : NLP) (S : List ReasoningStep) (r : Relationship)
    (h : r ∈ relsFrom nlp S) : r.rel_type = RelationshipType.contradicts := by
  obtain ⟨i, j, si, sj, hij, hi, hj, hc, hr⟩ := (relsFrom_mem nlp S r).mp h
  rw [hr]

/-! ## The claims -/

/-- C1.  For every input text, `parse(text)` returns a Chain whose steps are
exactly the lines that remain non-blank after trimming and stripping a
leading ordinal/bullet marker (digits followed by `.` or `)`), in input
order, and the step ids are exactly `1..n` for those `n` lines, assigned
monotonically, never reused or reordered. -/
theorem c1_segmentation (nlp : NLP) (text : String) :
    (parseText nlp text).steps.map ReasoningStep.text = survivingLines text ∧
    (parseText nlp text).steps.map ReasoningStep.id =
      List.range' 1 (survivingLines text).length := by
  rw [parseText_eq]
  exact ⟨mkSteps_map_text _ 1, mkSteps_map_id _ 1⟩

/-- C5.  Every step the parser builds is classified by the substring scan of
its lowercased final text: CONCLUSION on a conclusion indicator, otherwise
EVIDENCE on an evidence indicator, otherwise PREMISE — conclusion
indicators win — and ASSUMPTION is never assigned. -/
theorem c5_classifier (nlp : NLP) (text : String) :
    (parseText nlp text).steps.all (fun s =>
      (s.step_type ==
        (if conclusionIndicators.any (fun ind => pyContains (pyLower s.text) ind) then
          StepType.conclusion
         else if evidenceIndicators.any (fun ind => pyContains (pyLower s.text) ind) then
          StepType.evidence
         else StepType.premise)) &&
      !(s.step_type == StepType.assumption)) = true := by
  rw [parseText_eq]
  rw [List.all_eq_true]
  intro s hs
  obtain ⟨hty, -, -⟩ := mem_mkSteps _ 1 s hs
  rw [Bool.and_eq_true]
  constructor
  · rw [beq_iff_eq, hty]
    rfl
  · rw [Bool.not_eq_true', beq_eq_false_iff_ne, hty]
    unfold determineStepType
    by_cases h1 : (conclusionIndicators.any fun ind => pyContains (pyLower s.text) ind) = true
    · simp [h1]
    · by_cases h2 : (evidenceIndicators.any fun ind => pyContains (pyLower s.text) ind) = true
      · simp [h1, h2]
      · simp [h1, h2]

/-- C9.  Every relationship of a parsed chain (the chain analysis consumes;
analysis itself is read-only on the chain, so the invariant persists after
`analyzeChain`) resolves both of its endpoints to steps of the chain. -/
theorem c9_invariant (nlp : NLP) (text : String) :
    (parseText nlp text).relationships.all (fun r =>
      (parseText nlp text).steps.any (fun s => s.id == r.source_id) &&
      (parseText nlp text).steps.any (fun s => s.id == r.target_id)) = true := by
  rw [parseText_eq, List.all_eq_true]
  intro r hr
  obtain ⟨i, j, si, sj, hij, hi, hj, hc, hreq⟩ := (relsFrom_mem nlp _ r).mp hr
  rw [Bool.and_eq_true, List.any_eq_true, List.any_eq_true]
  constructor
  · exact ⟨si, List.getElem?_mem hi, by rw [hreq]; exact beq_self_eq_true _⟩
  · exact ⟨sj, List.getElem?_mem hj, by rw [hreq]; exact beq_self_eq_true _⟩

/-- In a parsed chain, the step stored at position `k` carries id `k + 1`. -/
theorem parse_step_id (nlp : NLP) (text : String) (k : Nat) (s : ReasoningStep)
    (h : (parseText nlp text).steps[k]? = some s) : s.id = k + 1 := by
  rw [parseText_eq] at h
  rw [mkSteps_getElem?] at h
  cases hg : (survivingLines text)[k]? with
  | none => rw [hg] at h; simp at h
  | some t =>
    rw [hg] at h
    simp only [Option.map_some', Option.some.injEq] at h
    rw [← h]
    show 1 + k = k + 1
    omega

/-- C2 (amended).  In a parsed chain, a relationship between the steps at
positions `i < j` exists iff `_are_contradictory` holds of their texts —
i.e. exactly one of the two has a negation among its meaningful SURFACE
tokens (`token.text`; the spec says lemmas, which the source does not read)
and the token sets share at least two members — and every relationship the
parser creates is CONTRADICTS (never SUPPORTS, QUESTIONS or ELABORATES),
directed from the earlier step to the later. -/
theorem c2_contradicts_inference (nlp : NLP) (text : String) (i j : Nat)
    (si sj : ReasoningStep) (hij : i < j)
    (hi : (parseText nlp text).steps[i]? = some si)
    (hj : (parseText nlp text).steps[j]? = some sj) :
    ((parseText nlp text).relationships.any (fun r =>
        r.source_id == si.id && r.target_id == sj.id)) =
      areContradictory nlp si.text sj.text ∧
    ∀ r ∈ (parseText nlp text).relationships, r.rel_type = RelationshipType.contradicts := by
  have hidsi := parse_step_id nlp text i si hi
  have hidsj := parse_step_id nlp text j sj hj
  constructor
  · cases hc : areContradictory nlp si.text sj.text with
    | true =>
      rw [List.any_eq_true]
      refine ⟨{ source_id := si.id, target_id := sj.id,
                rel_type := RelationshipType.contradicts }, ?_, by simp⟩
      rw [parseText_eq]
      rw [parseText_eq] at hi hj
      exact (relsFrom_mem nlp _ _).mpr ⟨i, j, si, sj, hij, hi, hj, hc, rfl⟩
    | false =>
      rw [List.any_eq_false]
      intro r hr
      intro hcontra
      rw [Bool.and_eq_true, beq_iff_eq, beq_iff_eq] at hcontra
      obtain ⟨hsrc, htgt⟩ := hcontra
      rw [parseText_eq] at hr
      obtain ⟨i', j', si', sj', hij', hi', hj', hc', hreq⟩ := (relsFrom_mem nlp _ r).mp hr
      have hidsi' := parse_step_id nlp text i' si' (by rw [parseText_eq]; exact hi')
      have hidsj' := parse_step_id nlp text j' sj' (by rw [parseText_eq]; exact hj')
      have hii : i' = i := by
        have : r.source_id = si'.id := by rw [hreq]
        omega
      have hjj : j' = j := by
        have : r.target_id = sj'.id := by rw [hreq]
        omega
      subst hii hjj
      rw [parseText_eq] at hi hj
      rw [hi] at hi'
      rw [hj] at hj'
      cases hi'
      cases hj'
      rw [hc'] at hc
      exact Bool.noConfusion hc
  · intro r hr
    rw [parseText_eq] at hr
    exact relsFrom_contradicts nlp _ r hr

/-- Witness for C2: a concrete parsed chain in which the pair of steps is
related exactly as `_are_contradictory` decides. -/
theorem c2_contradicts_inference_witness :
    ((parseText nlpWs c2WitText).relationships.any (fun r =>
        r.source_id == ({ id := 1, text := "x not apple pie",
                          step_type := StepType.premise } : ReasoningStep).id &&
        r.target_id == ({ id := 2, text := "apple pie good",
                          step_type := StepType.premise } : ReasoningStep).id)) =
      areContradictory nlpWs "x not apple pie" "apple pie good" := by
  have h := (c2_contradicts_inference nlpWs c2WitText 0 1
    { id := 1, text := "x not apple pie", step_type := StepType.premise }
    { id := 2, text := "apple pie good", step_type := StepType.premise }
    (by decide) (by decide) (by decide)).1
  exact h

/-- Counterexample for C2 as stated: with a tokenizer whose lemmas differ
from the surface forms, the spec-side lemma-based condition holds of the
two parsed steps, yet the parser adds no relationship at all (the source
compares `token.text`, not lemmas). -/
theorem c2_counterexample :
    (parseText nlpC2 c2CexText).steps.map ReasoningStep.text = ["dogs run not", "dog runs"] ∧
    areContradictorySpec nlpC2 "dogs run not" "dog runs" = true ∧
    (parseText nlpC2 c2CexText).relationships = [] := by
  refine ⟨by decide, by decide, by decide⟩

/-- The `next(...)` lookups of `_find_contradictions` succeed on every
CONTRADICTS relationship whose endpoints resolve, and the resulting issues
are the 1:1 projection of those relationships. -/
theorem contradictionsGo_of_resolvable (steps : List ReasoningStep) :
    ∀ rels : List Relationship,
      (∀ r ∈ rels, r.rel_type = RelationshipType.contradicts →
        (∃ s ∈ steps, s.id = r.source_id) ∧ (∃ s ∈ steps, s.id = r.target_id)) →
      ∃ issues, contradictionsGo steps rels = some issues ∧
        List.Forall₂ (fun (r : Relationship) (iss : Issue) =>
          iss.type = "contradiction" ∧ iss.severity = "high" ∧
          iss.step_ids = some [r.source_id, r.target_id] ∧
          ∃ s t : ReasoningStep,
            steps.find? (fun x => x.id == r.source_id) = some s ∧
            steps.find? (fun x => x.id == r.target_id) = some t ∧
            iss.details = some (s.text, t.text))
        (rels.filter (fun r => r.rel_type == RelationshipType.contradicts)) issues := by
  intro rels
  induction rels with
  | nil => intro _; exact ⟨[], rfl, by simp⟩
  | cons r rest ih =>
    intro h
    obtain ⟨issues', hgo, hfa⟩ := ih (fun x hx => h x (List.mem_cons_of_mem r hx))
    by_cases hc : r.rel_type = RelationshipType.contradicts
    · obtain ⟨hsrc, htgt⟩ := h r (List.mem_cons_self r rest) hc
      have hfs : (steps.find? (fun x => x.id == r.source_id)).isSome := by
        rw [List.find?_isSome]
        obtain ⟨s, hs, hid⟩ := hsrc
        exact ⟨s, hs, by simpa using hid⟩
      have hft : (steps.find? (fun x => x.id == r.target_id)).isSome := by
        rw [List.find?_isSome]
        obtain ⟨s, hs, hid⟩ := htgt
        exact ⟨s, hs, by simpa using hid⟩
      obtain ⟨s, hs⟩ := Option.isSome_iff_exists.mp hfs
      obtain ⟨t, ht⟩ := Option.isSome_iff_exists.mp hft
      refine ⟨mkContradictionIssue r s t :: issues', ?_, ?_⟩
      · show contradictionsGo steps (r :: rest) = _
        rw [contradictionsGo, if_pos (by simpa using hc), hs, ht, hgo]
        rfl
      · rw [List.filter_cons_of_pos (by simpa using hc)]
        exact List.Forall₂.cons ⟨rfl, rfl, rfl, s, t, hs, ht, rfl⟩ hfa
    · refine ⟨issues', ?_, ?_⟩
      · show contradictionsGo steps (r :: rest) = _
        rw [contradictionsGo, if_neg (by simpa using hc)]
        exact hgo
      · rw [List.filter_cons_of_neg (by simpa using hc)]
        exact hfa

/-- C3.  For every chain whose CONTRADICTS relationships resolve (the Chain
invariant; parse-produced chains satisfy it), the contradiction detector
emits exactly one high-severity `contradiction` issue per CONTRADICTS
relationship — a 1:1 projection — and each issue carries exactly the two
step ids of its relationship and both resolved steps' texts verbatim. -/
theorem c3_contradiction_projection (chain : ReasoningChain)
    (hres : ∀ r ∈ chain.relationships, r.rel_type = RelationshipType.contradicts →
      (∃ s ∈ chain.steps, s.id = r.source_id) ∧ (∃ s ∈ chain.steps, s.id = r.target_id)) :
    ∃ issues, findContradictions chain = some issues ∧
      issues.length = (chain.relationships.filter
        (fun r => r.rel_type == RelationshipType.contradicts)).length ∧
      List.Forall₂ (fun (r : Relationship) (iss : Issue) =>
        iss.type = "contradiction" ∧ iss.severity = "high" ∧
        iss.step_ids = some [r.source_id, r.target_id] ∧
        ∃ s t : ReasoningStep,
          chain.steps.find? (fun x => x.id == r.source_id) = some s ∧
          chain.steps.find? (fun x => x.id == r.target_id) = some t ∧
          iss.details = some (s.text, t.text))
        (chain.relationships.filter (fun r => r.rel_type == RelationshipType.contradicts))
        issues := by
  obtain ⟨issues, hgo, hfa⟩ := contradictionsGo_of_resolvable chain.steps chain.relationships hres
  exact ⟨issues, hgo, hfa.length_eq.symm, hfa⟩

/-- Witness for C3 at a concrete two-step chain with one CONTRADICTS
relationship. -/
theorem c3_contradiction_projection_witness :
    ∃ issues, findContradictions c3WitChain = some issues ∧
      issues.length = (c3WitChain.relationships.filter
        (fun r => r.rel_type == RelationshipType.contradicts)).length ∧
      List.Forall₂ (fun (r : Relationship) (iss : Issue) =>
        iss.type = "contradiction" ∧ iss.severity = "high" ∧
        iss.step_ids = some [r.source_id, r.target_id] ∧
        ∃ s t : ReasoningStep,
          c3WitChain.steps.find? (fun x => x.id == r.source_id) = some s ∧
          c3WitChain.steps.find? (fun x => x.id == r.target_id) = some t ∧
          iss.details = some (s.text, t.text))
        (c3WitChain.relationships.filter (fun r => r.rel_type == RelationshipType.contradicts))
        issues :=
  c3_contradiction_projection c3WitChain (by decide)

/-- Every relationship of a parsed chain resolves its endpoints (Prop
form used to discharge the detector's lookups). -/
theorem parse_resolvable (nlp : NLP) (text : String) :
    ∀ r ∈ (parseText nlp text).relationships, r.rel_type = RelationshipType.contradicts →
      (∃ s ∈ (parseText nlp text).steps, s.id = r.source_id) ∧
      (∃ s ∈ (parseText nlp text).steps, s.id = r.target_id) := by
  intro r hr _
  rw [parseText_eq] at hr ⊢
  obtain ⟨i, j, si, sj, hij, hi, hj, hc, hreq⟩ := (relsFrom_mem nlp _ r).mp hr
  constructor
  · exact ⟨si, List.getElem?_mem hi, by rw [hreq]⟩
  · exact ⟨sj, List.getElem?_mem hj, by rw [hreq]⟩

/-- Analysis of a parsed chain never raises: the contradiction lookups all
succeed. -/
theorem analyzeChain_parse_isSome (nlp : NLP) (text : String) :
    (analyzeChain nlp (parseText nlp text)).isSome = true := by
  obtain ⟨issues, hgo, -⟩ := contradictionsGo_of_resolvable
    (parseText nlp text).steps (parseText nlp text).relationships (parse_resolvable nlp text)
  show ((findContradictions (parseText nlp text)).map _).isSome = true
  rw [show findContradictions (parseText nlp text) = some issues from hgo]
  rfl

/-- C4 (amended).  Parsing an input with no non-blank lines yields the
empty chain; analysis and scoring of the empty chain return empty issue
lists; and analysis of any parsed chain (in particular a single-step one)
never raises — though, per the counterexample, a single-step chain's
issue lists need not be empty. -/
theorem c4_degenerate_chains (nlp : NLP) (sent : Sentiment) (text : String) :
    ((((pySplitLines text).map pyStrip).filter (fun l => l ≠ "")) = [] →
      parseText nlp text = { steps := [], relationships := [] }) ∧
    analyzeChain nlp { steps := [], relationships := [] } = some [] ∧
    getSuggestions sent { steps := [], relationships := [] } = [] ∧
    (analyzeChain nlp (parseText nlp text)).isSome = true := by
  refine ⟨?_, rfl, rfl, analyzeChain_parse_isSome nlp text⟩
  intro h
  rw [parseText_eq]
  have hsl : survivingLines text = [] := by
    rw [survivingLines, h]
    rfl
  rw [hsl]
  rfl

/-- Witness for C4 at a concrete blank input. -/
theorem c4_degenerate_chains_witness :
    parseText nlpWs "\n  \n" = { steps := [], relationships := [] } ∧
    analyzeChain nlpWs { steps := [], relationships := [] } = some [] ∧
    getSuggestions sentZero { steps := [], relationships := [] } = [] ∧
    (analyzeChain nlpWs (parseText nlpWs "\n  \n")).isSome = true :=
  ⟨(c4_degenerate_chains nlpWs sentZero "\n  \n").1 (by decide),
   (c4_degenerate_chains nlpWs sentZero "\n  \n").2.1,
   (c4_degenerate_chains nlpWs sentZero "\n  \n").2.2.1,
   (c4_degenerate_chains nlpWs sentZero "\n  \n").2.2.2⟩

/-- Counterexample for C4 as stated: a chain with exactly one step for
which `analyze` returns a non-empty issue list, and one for which `score`
(get_suggestions) does. -/
theorem c4_counterexample :
    (parseText nlpWs "everyone must die now").steps.length = 1 ∧
    ((analyzeChain nlpWs (parseText nlpWs "everyone must die now")).getD []).length = 1 ∧
    (parseText nlpWs "hi").steps.length = 1 ∧
    (getSuggestions sentZero (parseText nlpWs "hi")).length = 1 :=
  ⟨rfl, rfl, rfl, rfl⟩

/-- The assumption-indicator loop, flattened: if any softening phrase or
conditional marker occurs anywhere in the text, every indicator is skipped;
otherwise the first present indicator wins. -/
theorem assumptionScan_eq (tl : String) :
    ∀ inds : List (String × Rat),
      assumptionScan tl inds =
        if softeningPhrases.any (fun p => pyContains tl p) ||
           conditionalMarkers.any (fun p => pyContains tl p) then none
        else (inds.find? (fun ic => pyContains tl ic.1)).map Prod.snd := by
  intro inds
  induction inds with
  | nil => simp [assumptionScan]
  | cons ic rest ih =>
    obtain ⟨ind, conf⟩ := ic
    show (if pyContains tl ind = true then _ else _) = _
    by_cases hin : pyContains tl ind = true
    · rw [if_pos hin]
      by_cases hsoft : (softeningPhrases.any fun p => pyContains tl p) = true
      · rw [if_pos hsoft, ih, if_pos (by rw [hsoft]; rfl), if_pos (by rw [hsoft]; rfl)]
      · rw [if_neg hsoft]
        by_cases hcond : (conditionalMarkers.any fun p => pyContains tl p) = true
        · rw [if_pos hcond, ih]
          rw [if_pos (by rw [hcond, Bool.or_true]), if_pos (by rw [hcond, Bool.or_true])]
        · rw [if_neg hcond,
            if_neg (by rw [Bool.or_eq_true]; rintro (h | h); exact hsoft h; exact hcond h)]
          simp [List.find?_cons_of_pos, hin]
    · rw [if_neg hin, ih]
      by_cases hsc : ((softeningPhrases.any fun p => pyContains tl p) ||
          (conditionalMarkers.any fun p => pyContains tl p)) = true
      · rw [if_pos hsc, if_pos hsc]
      · rw [if_neg hsc, if_neg hsc]
        simp [List.find?_cons_of_neg, hin]

/-- C6 (amended).  The unsupported-claims pass emits at most one
`potential_assumption` issue per step: none when any phrase of the fixed
softening list or a conditional marker occurs anywhere in the step
(regardless of which indicator matched), otherwise one issue for the first
present indicator, with severity low and that indicator's confidence
weight. -/
theorem c6_assumption_pass (chain : ReasoningChain) :
    (findUnsupportedClaims chain).filter (fun iss => iss.type == "potential_assumption") =
      chain.steps.filterMap (fun step =>
        let tl := pyLower step.text
        if softeningPhrases.any (fun p => pyContains tl p) ||
           conditionalMarkers.any (fun p => pyContains tl p) then none
        else (assumptionIndicators.find? (fun ic => pyContains tl ic.1)).map
          (fun ic => mkAssumptionIssue step ic.2)) := by
  show ((if _ then chain.steps.filterMap _ else []) ++ (if _ then [planningIssue] else []) ++
    chain.steps.filterMap (fun step =>
      (assumptionScan (pyLower step.text) assumptionIndicators).map
        (mkAssumptionIssue step))).filter _ = _
  rw [List.filter_append, List.filter_append]
  have h1 : ∀ (l : List ReasoningStep) (rels : List Relationship) (b : Bool),
      ((if b = true then l.filterMap (fun step =>
          if step.step_type == StepType.conclusion && !isCommonKnowledge step.text then
            if (rels.filter (fun r => r.target_id == step.id &&
                  r.rel_type == RelationshipType.supports)).isEmpty &&
               !(logicalIndicators.any (fun ind => pyContains (pyLower step.text) ind)) then
              some (mkConsiderIssue step)
            else none
          else none) else []).filter
        (fun iss => iss.type == "potential_assumption")) = [] := by
    intro l rels b
    rw [List.filter_eq_nil]
    intro iss hiss
    split at hiss
    · obtain ⟨step, -, hf⟩ := List.mem_filterMap.mp hiss
      split at hf
      · split at hf
        · cases hf
          simp [mkConsiderIssue]
        · cases hf
      · cases hf
    · cases hiss
  have h2 : ∀ b : Bool, ((if b = true then [planningIssue] else []).filter
      (fun iss => iss.type == "potential_assumption")) = [] := by
    intro b
    cases b <;> simp [planningIssue]
  rw [h1, h2]
  have h3 : (chain.steps.filterMap (fun step =>
      (assumptionScan (pyLower step.text) assumptionIndicators).map
        (mkAssumptionIssue step))).filter (fun iss => iss.type == "potential_assumption") =
      chain.steps.filterMap (fun step =>
        (assumptionScan (pyLower step.text) assumptionIndicators).map
          (mkAssumptionIssue step)) := by
    rw [List.filter_eq_self]
    intro iss hiss
    obtain ⟨step, -, hf⟩ := List.mem_filterMap.mp hiss
    cases hsc : assumptionScan (pyLower step.text) assumptionIndicators with
    | none => rw [hsc] at hf; cases hf
    | some conf =>
      rw [hsc] at hf
      cases hf
      simp [mkAssumptionIssue]
  rw [h3, List.nil_append, List.nil_append]
  apply List.filterMap_congr
  intro step _
  rw [assumptionScan_eq]
  by_cases hsc : ((softeningPhrases.any fun p => pyContains (pyLower step.text) p) ||
      (conditionalMarkers.any fun p => pyContains (pyLower step.text) p)) = true
  · rw [if_pos hsc]
    show Option.map _ none = _
    rw [if_pos hsc]
    rfl
  · rw [if_neg hsc]
    show Option.map _ ((assumptionIndicators.find? _).map Prod.snd) = _
    rw [if_neg hsc, Option.map_map]
    rfl

/-- Counterexample for C6 as stated: the step carries the indicator `must`,
no must-softening frame and no conditional marker, so the claim requires a
`potential_assumption` issue; the pass emits none (the unrelated phrase
`i should` suppresses every indicator). -/
theorem c6_counterexample :
    ((findUnsupportedClaims c6CexChain).filter
        (fun iss => iss.type == "potential_assumption")) = [] ∧
    pyContains (pyLower "success must come and i should rest") "must" = true ∧
    (["i must", "we must", "you must", "one must"].all
      (fun p => !(pyContains (pyLower "success must come and i should rest") p))) = true ∧
    (conditionalMarkers.all
      (fun p => !(pyContains (pyLower "success must come and i should rest") p))) = true := by
  refine ⟨rfl, by decide, by decide, by decide⟩

/-! ## Shape lemmas for the detector outputs -/

theorem lookup_val_mem (k : String) (v : Nat) :
    ∀ l : List (String × Nat), l.lookup k = some v → ∃ k', (k', v) ∈ l := by
  intro l
  induction l with
  | nil => intro h; cases h
  | cons p rest ih =>
    intro h
    obtain ⟨k', v'⟩ := p
    simp only [List.lookup] at h
    split at h
    · cases h
      exact ⟨k', List.mem_cons_self _ _⟩
    · obtain ⟨k'', hk⟩ := ih h
      exact ⟨k'', List.mem_cons_of_mem _ hk⟩

theorem forall₂_mem_right {α β : Type} {R : α → β → Prop} :
    ∀ {l1 : List α} {l2 : List β}, List.Forall₂ R l1 l2 → ∀ b ∈ l2, ∃ a ∈ l1, R a b := by
  intro l1 l2 h
  induction h with
  | nil => intro b hb; cases hb
  | cons hR hrest ih =>
    intro b hb
    rcases List.mem_cons.mp hb with hb | hb
    · subst hb
      exact ⟨_, List.mem_cons_self _ _, hR⟩
    · obtain ⟨a, ha, haR⟩ := ih b hb
      exact ⟨a, List.mem_cons_of_mem _ ha, haR⟩

/-- Every issue of the unsupported-claims pass is one of its three shapes,
none of which carries a `step` or `step_ids` key. -/
theorem unsupported_shape (chain : ReasoningChain) (iss : Issue)
    (h : iss ∈ findUnsupportedClaims chain) :
    (iss.type = "consider_adding_support" ∨ iss.type = "planning_analysis" ∨
      iss.type = "potential_assumption") ∧
    iss.step_ids = none ∧ iss.step = none ∧ iss.severity ≠ "medium" := by
  simp only [findUnsupportedClaims] at h
  rcases List.mem_append.mp h with h | h
  · rcases List.mem_append.mp h with h | h
    · split at h
      · obtain ⟨step, -, hf⟩ := List.mem_filterMap.mp h
        split at hf
        · split at hf
          · cases hf
            exact ⟨Or.inl rfl, rfl, rfl, by simp [mkConsiderIssue]⟩
          · cases hf
        · cases hf
      · cases h
    · split at h
      · rcases List.mem_singleton.mp h with rfl
        exact ⟨Or.inr (Or.inl rfl), rfl, rfl, by simp [planningIssue]⟩
      · cases h
  · obtain ⟨step, -, hf⟩ := List.mem_filterMap.mp h
    cases hsc : assumptionScan (pyLower step.text) assumptionIndicators with
    | none => rw [hsc] at hf; cases hf
    | some conf =>
      rw [hsc] at hf
      cases hf
      exact ⟨Or.inr (Or.inr rfl), rfl, rfl, by simp [mkAssumptionIssue]⟩

/-- Every hasty-generalization issue names a step of the chain. -/
theorem hasty_shape (chain : ReasoningChain) (iss : Issue)
    (h : iss ∈ findHastyGeneralizations chain) :
    ∃ step ∈ chain.steps, ∃ conf, iss = mkHastyIssue step conf := by
  simp only [findHastyGeneralizations] at h
  obtain ⟨step, hstep, hin⟩ := List.mem_flatMap.mp h
  split at hin
  · cases hin
  · obtain ⟨ic, -, hf⟩ := List.mem_filterMap.mp hin
    split at hf
    · split at hf
      · cases hf
        exact ⟨step, hstep, ic.2, rfl⟩
      · cases hf
    · cases hf

theorem bibleIssue_shape (chain : ReasoningChain) (iss : Issue)
    (h : iss ∈ bibleIssue chain) : iss = mkBibleIssue ∧ 2 ≤ chain.steps.length := by
  unfold bibleIssue at h
  split at h
  · rename_i s0 s1 rest heq
    split at h
    · rcases List.mem_singleton.mp h with rfl
      refine ⟨rfl, ?_⟩
      rw [heq]
      simp only [List.length_cons]
      omega
    · cases h
  · cases h

theorem dupScan_shape (nlp : NLP) :
    ∀ (rest : List ReasoningStep) (seen : List (String × Nat)) (i : Nat),
      (∀ p ∈ seen, 1 ≤ p.2 ∧ p.2 ≤ i) →
      ∀ iss ∈ dupScan nlp seen i rest,
        ∃ a b, iss = mkDupIssue a b ∧ 1 ≤ a ∧ a ≤ i + rest.length ∧
          1 ≤ b ∧ b ≤ i + rest.length := by
  intro rest
  induction rest with
  | nil => intro seen i hinv iss hiss; cases hiss
  | cons s rest ih =>
    intro seen i hinv iss hiss
    simp only [dupScan] at hiss
    split at hiss
    · rename_i prev hl
      split at hiss
      · rcases List.mem_cons.mp hiss with rfl | hiss
        · obtain ⟨k', hk⟩ := lookup_val_mem _ prev seen hl
          obtain ⟨h1, h2⟩ := hinv _ hk
          exact ⟨prev, i + 1, rfl, h1, by simp only [List.length_cons]; omega,
            by omega, by simp only [List.length_cons]; omega⟩
        · obtain ⟨a, b, heq, ha1, ha2, hb1, hb2⟩ := ih seen (i + 1)
            (fun p hp => ⟨(hinv p hp).1, by have := (hinv p hp).2; omega⟩) iss hiss
          exact ⟨a, b, heq, ha1, by simp only [List.length_cons]; omega,
            hb1, by simp only [List.length_cons]; omega⟩
      · obtain ⟨a, b, heq, ha1, ha2, hb1, hb2⟩ := ih ((normalizeStep nlp s.text, i + 1) :: seen)
          (i + 1) (by
            intro p hp
            rcases List.mem_cons.mp hp with rfl | hp
            · exact ⟨by omega, le_refl _⟩
            · exact ⟨(hinv p hp).1, by have := (hinv p hp).2; omega⟩) iss hiss
        exact ⟨a, b, heq, ha1, by simp only [List.length_cons]; omega,
          hb1, by simp only [List.length_cons]; omega⟩
    · obtain ⟨a, b, heq, ha1, ha2, hb1, hb2⟩ := ih ((normalizeStep nlp s.text, i + 1) :: seen)
        (i + 1) (by
          intro p hp
          rcases List.mem_cons.mp hp with rfl | hp
          · exact ⟨by omega, le_refl _⟩
          · exact ⟨(hinv p hp).1, by have := (hinv p hp).2; omega⟩) iss hiss
      exact ⟨a, b, heq, ha1, by simp only [List.length_cons]; omega,
        hb1, by simp only [List.length_cons]; omega⟩

theorem pass2Scan_shape (nlp : NLP) :
    ∀ (rest : List ReasoningStep) (i : Nat), ∀ iss ∈ pass2Scan nlp i rest,
      ∃ k sugg, iss = mkPairCircularIssue k sugg ∧ i ≤ k ∧ k + 2 ≤ i + rest.length := by
  intro rest
  induction rest with
  | nil => intro i iss hiss; cases hiss
  | cons s1 tail ih =>
    intro i iss hiss
    cases tail with
    | nil => cases hiss
    | cons s2 rest' =>
      simp only [pass2Scan] at hiss
      rcases List.mem_append.mp hiss with hiss | hiss
      · rcases List.mem_append.mp hiss with hiss | hiss
        · split at hiss
          · rcases List.mem_singleton.mp hiss with rfl
            exact ⟨i, _, rfl, le_refl _, by simp only [List.length_cons]; omega⟩
          · cases hiss
        · split at hiss
          · split at hiss
            · rcases List.mem_singleton.mp hiss with rfl
              exact ⟨i, _, rfl, le_refl _, by simp only [List.length_cons]; omega⟩
            · cases hiss
          · cases hiss
      · obtain ⟨k, sugg, heq, hk1, hk2⟩ := ih (i + 1) iss hiss
        refine ⟨k, sugg, heq, by omega, ?_⟩
        simp only [List.length_cons] at hk2 ⊢
        omega

/-- Every circular-reasoning issue is high-severity, typed
`circular_reasoning`, and pairs two step numbers within the chain. -/
theorem circular_shape (nlp : NLP) (chain : ReasoningChain) (iss : Issue)
    (h : iss ∈ findCircularReasoning nlp chain) :
    iss.type = "circular_reasoning" ∧ iss.severity = "high" ∧ iss.step = none ∧
    ∃ a b, iss.step_ids = some [a, b] ∧ 1 ≤ a ∧ a ≤ chain.steps.length ∧
      1 ≤ b ∧ b ≤ chain.steps.length := by
  rcases List.mem_append.mp h with h' | h'
  · rcases List.mem_append.mp h' with h'' | h''
    · obtain ⟨rfl, hlen⟩ := bibleIssue_shape chain iss h''
      exact ⟨rfl, rfl, rfl, 1, 2, rfl, by omega, by omega, by omega, by omega⟩
    · obtain ⟨a, b, rfl, ha1, ha2, hb1, hb2⟩ :=
        dupScan_shape nlp chain.steps [] 0 (by intro p hp; cases hp) iss h''
      exact ⟨rfl, rfl, rfl, a, b, rfl, ha1, by omega, hb1, by omega⟩
  · obtain ⟨k, sugg, rfl, -, hk2⟩ := pass2Scan_shape nlp chain.steps 0 iss h'
    exact ⟨rfl, rfl, rfl, k + 1, k + 2, rfl, by omega, by omega, by omega, by omega⟩

/-- The one issue `_find_emotional_reasoning` can emit for a step, with its
premise / relational-conclusion flags. -/
theorem emotionalIssueFor_shape (nlp : NLP) (chain : ReasoningChain) (i : Nat)
    (prev : Option ReasoningStep) (step : ReasoningStep) (iss : Issue)
    (h : emotionalIssueFor nlp chain i prev step = some iss) :
    ∃ isP isR : Bool, iss = mkEmotionalIssue i isP isR ∧
      ((isP || isR) = true → ∃ r ∈ chain.relationships,
        r.rel_type = RelationshipType.supports) := by
  simp only [emotionalIssueFor] at h
  split at h
  · cases h
  · split at h
    · split at h
      · split at h
        · cases h
        · cases h
          refine ⟨_, _, rfl, ?_⟩
          intro hor
          rcases Bool.or_eq_true _ _ ▸ hor with hP | hR
          · obtain ⟨r, hr, hcond⟩ := List.any_eq_true.mp hP
            rw [Bool.and_eq_true] at hcond
            exact ⟨r, hr, by simpa using hcond.2⟩
          · obtain ⟨r, hr, hcond⟩ := List.any_eq_true.mp hR
            rw [Bool.and_eq_true] at hcond
            rw [Bool.and_eq_true] at hcond
            exact ⟨r, hr, by simpa using hcond.1.1⟩
      · cases h
    · cases h

/-- Every emotional-reasoning issue of a scan starting at index `i` over
`rest` steps names a step number in range, and a medium flag forces a
SUPPORTS relationship on the chain. -/
theorem emoScan_shape (nlp : NLP) (chain : ReasoningChain) :
    ∀ (rest : List ReasoningStep) (i : Nat) (prev : Option ReasoningStep),
      ∀ iss ∈ emoScan nlp chain i prev rest,
        ∃ k isP isR, iss = mkEmotionalIssue k isP isR ∧ i ≤ k ∧ k + 1 ≤ i + rest.length ∧
          ((isP || isR) = true → ∃ r ∈ chain.relationships,
            r.rel_type = RelationshipType.supports) := by
  intro rest
  induction rest with
  | nil => intro i prev iss hiss; cases hiss
  | cons s rest ih =>
    intro i prev iss hiss
    simp only [emoScan] at hiss
    rcases List.mem_append.mp hiss with hiss | hiss
    · cases hone : emotionalIssueFor nlp chain i prev s with
      | none => rw [hone] at hiss; cases hiss
      | some issFound =>
        rw [hone] at hiss
        rcases List.mem_singleton.mp hiss with rfl
        obtain ⟨isP, isR, heq, hsup⟩ := emotionalIssueFor_shape nlp chain i prev s _ hone
        exact ⟨i, isP, isR, heq, le_refl _, by simp only [List.length_cons]; omega, hsup⟩
    · obtain ⟨k, isP, isR, heq, hk1, hk2, hsup⟩ := ih (i + 1) (some s) iss hiss
      refine ⟨k, isP, isR, heq, by omega, ?_, hsup⟩
      simp only [List.length_cons] at hk2 ⊢
      omega

/-- Membership of an id among a parsed chain's steps is exactly the range
check `1 ≤ k ≤ n`. -/
theorem parse_any_id (nlp : NLP) (text : String) (k : Nat) :
    ((parseText nlp text).steps.any (fun s => s.id == k)) =
      decide (1 ≤ k ∧ k < 1 + (parseText nlp text).steps.length) := by
  rw [parseText_eq]
  show (mkSteps 1 (survivingLines text)).any _ = _
  rw [mkSteps_any_id, mkSteps_length]

/-- The analysis result on a parsed chain, with the contradiction issues
named. -/
theorem analyzeChain_parse_eq (nlp : NLP) (text : String) (contra : List Issue)
    (hgo : contradictionsGo (parseText nlp text).steps (parseText nlp text).relationships =
      some contra) :
    analyzeChain nlp (parseText nlp text) =
      some (findUnsupportedClaims (parseText nlp text) ++
        findCircularReasoning nlp (parseText nlp text) ++
        findHastyGeneralizations (parseText nlp text) ++ contra ++
        findEmotionalReasoning nlp (parseText nlp text)) := by
  show (contradictionsGo _ _).map _ = _
  rw [hgo]
  rfl

/-- C7 (amended).  On a parsed chain, every issue `analyze` returns either
is one of the three chain-scoped shapes (`consider_adding_support`,
`planning_analysis`, `potential_assumption`), which carry neither a `step`
nor a `step_ids` key, or carries a non-empty `step_ids` list every entry of
which is the id of a step of the chain. -/
theorem c7_issue_step_scope (nlp : NLP) (text : String) :
    ((analyzeChain nlp (parseText nlp text)).getD []).all (fun iss =>
      if ["consider_adding_support", "planning_analysis",
          "potential_assumption"].contains iss.type then
        iss.step_ids == none && iss.step == none
      else
        match iss.step_ids with
        | some ids => !ids.isEmpty &&
            ids.all (fun k => (parseText nlp text).steps.any (fun s => s.id == k))
        | none => false) = true := by
  obtain ⟨contra, hgo, hfa⟩ := contradictionsGo_of_resolvable
    (parseText nlp text).steps (parseText nlp text).relationships (parse_resolvable nlp text)
  rw [analyzeChain_parse_eq nlp text contra hgo, Option.getD_some, List.all_eq_true]
  intro iss hiss
  rcases List.mem_append.mp hiss with hiss | hemo
  rcases List.mem_append.mp hiss with hiss | hcontra
  rcases List.mem_append.mp hiss with hiss | hhasty
  rcases List.mem_append.mp hiss with hunsup | hcirc
  · obtain ⟨hty, hsi, hst, -⟩ := unsupported_shape _ iss hunsup
    rcases hty with hty | hty | hty <;> simp [hty, hsi, hst]
  · obtain ⟨hty, -, -, a, b, hsi, ha1, ha2, hb1, hb2⟩ := circular_shape nlp _ iss hcirc
    rw [hty, hsi]
    show (!([a, b].isEmpty) &&
      ([a, b].all (fun k => (parseText nlp text).steps.any (fun s => s.id == k)))) = true
    simp only [List.isEmpty_cons, Bool.not_false, Bool.true_and, List.all_cons, List.all_nil,
      Bool.and_true, Bool.and_eq_true, parse_any_id, decide_eq_true_eq]
    exact ⟨⟨ha1, by omega⟩, hb1, by omega⟩
  · obtain ⟨step, hmem, conf, rfl⟩ := hasty_shape _ iss hhasty
    rw [show (mkHastyIssue step conf).type = "hasty_generalization" from rfl,
      show (mkHastyIssue step conf).step_ids = some [step.id] from rfl,
      if_neg (by decide)]
    simp only [List.isEmpty_cons, Bool.not_false, Bool.true_and, List.all_cons, List.all_nil,
      Bool.and_true]
    exact List.any_eq_true.mpr ⟨step, hmem, by simp⟩
  · obtain ⟨r, -, hty, -, hsi, s, t, hfs, hft, -⟩ := forall₂_mem_right hfa iss hcontra
    rw [hty, hsi]
    show (!([r.source_id, r.target_id].isEmpty) &&
      ([r.source_id, r.target_id].all
        (fun k => (parseText nlp text).steps.any (fun s => s.id == k)))) = true
    simp only [List.isEmpty_cons, Bool.not_false, Bool.true_and, List.all_cons, List.all_nil,
      Bool.and_true, Bool.and_eq_true]
    constructor
    · exact List.any_eq_true.mpr
        ⟨s, List.mem_of_find?_eq_some hfs, by simpa using List.find?_some hfs⟩
    · exact List.any_eq_true.mpr
        ⟨t, List.mem_of_find?_eq_some hft, by simpa using List.find?_some hft⟩
  · obtain ⟨k, isP, isR, rfl, -, hk2, -⟩ :=
      emoScan_shape nlp _ (parseText nlp text).steps 0 none iss hemo
    rw [show (mkEmotionalIssue k isP isR).type = "emotional_reasoning" from rfl,
      show (mkEmotionalIssue k isP isR).step_ids = some [k + 1] from rfl,
      if_neg (by decide)]
    simp only [List.isEmpty_cons, Bool.not_false, Bool.true_and, List.all_cons, List.all_nil,
      Bool.and_true, parse_any_id, decide_eq_true_eq]
    omega

/-- Counterexample for C7 as stated: a one-step chain on which `analyze`
returns exactly one issue, a `potential_assumption` record with neither a
`step` nor a `step_ids` key. -/
theorem c7_counterexample :
    analyzeChain nlpWs c7CexChain = some [c7CexIssue] ∧
    c7CexIssue.type = "potential_assumption" ∧
    c7CexIssue.step_ids = none ∧ c7CexIssue.step = none :=
  ⟨rfl, rfl, rfl, rfl⟩

/-- C10.  On a parsed chain every `emotional_reasoning` issue has severity
`low`: the `medium` branch requires the step to be the source or the
emotion-backed target of a SUPPORTS relationship, and the parser only ever
creates CONTRADICTS relationships. -/
theorem c10_emotional_severity (nlp : NLP) (text : String) :
    ((analyzeChain nlp (parseText nlp text)).getD []).all (fun iss =>
      !(iss.type == "emotional_reasoning") || (iss.severity == "low")) = true := by
  obtain ⟨contra, hgo, hfa⟩ := contradictionsGo_of_resolvable
    (parseText nlp text).steps (parseText nlp text).relationships (parse_resolvable nlp text)
  rw [analyzeChain_parse_eq nlp text contra hgo, Option.getD_some, List.all_eq_true]
  intro iss hiss
  rcases List.mem_append.mp hiss with hiss | hemo
  rcases List.mem_append.mp hiss with hiss | hcontra
  rcases List.mem_append.mp hiss with hiss | hhasty
  rcases List.mem_append.mp hiss with hunsup | hcirc
  · obtain ⟨hty, -, -, -⟩ := unsupported_shape _ iss hunsup
    rcases hty with hty | hty | hty <;> simp [hty]
  · obtain ⟨hty, -, -⟩ := circular_shape nlp _ iss hcirc
    simp [hty]
  · obtain ⟨step, -, conf, rfl⟩ := hasty_shape _ iss hhasty
    simp [mkHastyIssue]
  · obtain ⟨r, -, hty, -⟩ := forall₂_mem_right hfa iss hcontra
    simp [hty]
  · obtain ⟨k, isP, isR, rfl, -, -, hsup⟩ :=
      emoScan_shape nlp _ (parseText nlp text).steps 0 none iss hemo
    have hfalse : (isP || isR) = false := by
      cases hb : (isP || isR) with
      | false => rfl
      | true =>
        obtain ⟨r, hr, hsupp⟩ := hsup hb
        rw [parseText_eq] at hr
        have := relsFrom_contradicts nlp _ r hr
        rw [this] at hsupp
        cases hsupp
    show (!((mkEmotionalIssue k isP isR).type == "emotional_reasoning") ||
      ((if isP || isR then "medium" else "low") == "low")) = true
    rw [hfalse]
    simp

/-! ## The flow scorer (C8) -/

/-- `_analyze_flow`'s pair loop, characterized over the indexed pairs. -/
theorem flowScan_eq :
    ∀ (rest : List ReasoningStep) (i : Nat),
      flowScan i rest = (flowPairs i rest).filterMap (fun t =>
        if needsTransitionOf t.2.2 && decide (topicOverlapOf t.2.1 t.2.2 < 0.4) then
          some (mkFlowIssue t.1 (topicOverlapOf t.2.1 t.2.2))
        else none) := by
  intro rest
  induction rest with
  | nil => intro i; rfl
  | cons s1 tail ih =>
    intro i
    cases tail with
    | nil => rfl
    | cons s2 rest' =>
      show (if needsTransitionOf s2 && decide (topicOverlapOf s1 s2 < 0.4) then
          [mkFlowIssue i (topicOverlapOf s1 s2)] else []) ++ flowScan (i + 1) (s2 :: rest') =
        ((i, s1, s2) :: flowPairs (i + 1) (s2 :: rest')).filterMap _
      rw [List.filterMap_cons, ih (i + 1)]
      dsimp only
      by_cases hg : (needsTransitionOf s2 && decide (topicOverlapOf s1 s2 < 0.4)) = true
      · rw [if_pos hg, if_pos hg]
        rfl
      · rw [if_neg hg, if_neg hg]
        rfl

/-- Every flow suggestion's confidence exceeds one fifth: the issue is only
emitted under `overlap < 0.4`, and `0.8 - overlap * 1.5 > 0.2` there. -/
theorem flowScan_conf_bound :
    ∀ (rest : List ReasoningStep) (i : Nat),
      ∀ iss ∈ flowScan i rest, (1 : Rat) / 5 < iss.confidence.getD 0 := by
  intro rest
  induction rest with
  | nil => intro i iss hiss; cases hiss
  | cons s1 tail ih =>
    intro i iss hiss
    cases tail with
    | nil => cases hiss
    | cons s2 rest' =>
      have hiss2 : iss ∈ (if needsTransitionOf s2 && decide (topicOverlapOf s1 s2 < 0.4) then
          [mkFlowIssue i (topicOverlapOf s1 s2)] else []) ++ flowScan (i + 1) (s2 :: rest') := hiss
      rcases List.mem_append.mp hiss2 with h | h
      · split at h
        · rename_i hg
          rcases List.mem_singleton.mp h with rfl
          rw [Bool.and_eq_true, decide_eq_true_eq] at hg
          show (1 : Rat) / 5 < 0.8 - topicOverlapOf s1 s2 * 1.5
          have hlt := hg.2
          have h04 : (0.4 : Rat) = 2 / 5 := by norm_num
          have h08 : (0.8 : Rat) = 4 / 5 := by norm_num
          have h15 : (1.5 : Rat) = 3 / 2 := by norm_num
          rw [h04] at hlt
          rw [h08, h15]
          linarith
        · cases h
      · exact ih (i + 1) iss h

/-- C8 (amended).  `_analyze_flow` emits a `smooth_transition_needed`
suggestion exactly for the consecutive pairs with no transition indicator
in the next step and topic overlap below 0.4, its confidence exactly
`0.8 - overlap * 1.5`, unclamped — and because the guard bounds the
overlap, that confidence always exceeds one fifth (it can never go below
zero). -/
theorem c8_flow_confidence (chain : ReasoningChain) :
    analyzeFlow chain = (flowPairs 0 chain.steps).filterMap (fun t =>
      if needsTransitionOf t.2.2 && decide (topicOverlapOf t.2.1 t.2.2 < 0.4) then
        some (mkFlowIssue t.1 (topicOverlapOf t.2.1 t.2.2))
      else none) ∧
    ∀ iss ∈ analyzeFlow chain, (1 : Rat) / 5 < iss.confidence.getD 0 := by
  constructor
  · unfold analyzeFlow
    cases hs : chain.steps with
    | nil => rfl
    | cons a tail =>
      cases tail with
      | nil => rfl
      | cons b rest =>
        rw [if_neg (by simp)]
        exact flowScan_eq (a :: b :: rest) 0
  · intro iss hiss
    unfold analyzeFlow at hiss
    split at hiss
    · cases hiss
    · exact flowScan_conf_bound chain.steps 0 iss hiss

/-- Counterexample for C8 as stated ("can go below 0 for some input
chain"): no chain whatever yields a negative flow confidence. -/
theorem c8_counterexample : flowConfidenceNonneg := by
  intro chain iss hiss
  unfold analyzeFlow at hiss
  split at hiss
  · cases hiss
  · have hb := flowScan_conf_bound chain.steps 0 iss hiss
    intro hneg
    have : (0 : Rat) < 1 / 5 := by norm_num
    linarith

end Reasoner
